import Mathlib

/-!
Shallow embedding of the pro-wrestling-sim match engine
(`src/core/match.py`, `feud.py`, `wrestler.py`, `title.py`, `stable.py`,
`records.py`, `show.py`) together with theorems about the engine's
documented properties.

Python `int` is modelled as `Int`, Python floats and true division as `Rat`.
`random.randint` / `random.random` / `random.uniform` draws are passed in
explicitly as parameters, so every simulator is a pure function of its
inputs and its random draws.
-/

namespace PWSim

/-- Python `int(x)` truncation toward zero of a rational. -/
def pyInt (q : ℚ) : ℤ :=
  if q < 0 then -(⌊-q⌋) else ⌊q⌋

/-- The final clamp `min(100, max(0, int(final_score)))` shared by all rating
functions. -/
def clampRating (q : ℚ) : ℤ :=
  min 100 (max 0 (pyInt q))

/-- A wrestler (`core/wrestler.py`), carrying the 27 numeric attributes plus
the dynamic status fields the engine mutates. -/
structure Wrestler where
  id : ℤ
  name : String
  -- physical
  strength : ℤ
  speed : ℤ
  agility : ℤ
  durability : ℤ
  stamina : ℤ
  recovery : ℤ
  -- offense
  striking : ℤ
  grappling : ℤ
  submission : ℤ
  highFlying : ℤ
  hardcore : ℤ
  powerMoves : ℤ
  technical : ℤ
  dirtyTactics : ℤ
  -- defense
  strikeDefense : ℤ
  grappleDefense : ℤ
  aerialDefense : ℤ
  ringAwareness : ℤ
  -- entertainment
  micSkills : ℤ
  charisma : ℤ
  look : ℤ
  starPower : ℤ
  entrance : ℤ
  -- intangibles
  psychology : ℤ
  consistency : ℤ
  bigMatch : ℤ
  clutch : ℤ
  -- dynamic status
  morale : ℤ
  condition : ℤ
  heat : ℤ
  wins : ℤ
  losses : ℤ
  hasMitbBriefcase : Bool
  isInjured : Bool
  injuryWeeksRemaining : ℤ
  deriving DecidableEq, Inhabited

/-- Legacy alias `Wrestler.brawl` (maps to striking). -/
def Wrestler.brawl (w : Wrestler) : ℤ := w.striking

/-- Legacy alias `Wrestler.tech` (maps to technical). -/
def Wrestler.tech (w : Wrestler) : ℤ := w.technical

/-- Legacy alias `Wrestler.air` (maps to high_flying). -/
def Wrestler.air (w : Wrestler) : ℤ := w.highFlying

/-- Legacy alias `Wrestler.psych` (maps to psychology). -/
def Wrestler.psych (w : Wrestler) : ℤ := w.psychology

/-- `Wrestler.get_overall_rating`: weighted category averages, truncated to
an int. -/
def Wrestler.getOverallRating (w : Wrestler) : ℤ :=
  let physicalAvg : ℚ :=
    (w.strength + w.speed + w.agility + w.durability + w.stamina + w.recovery : ℤ) / 6
  let offenseAvg : ℚ :=
    (w.striking + w.grappling + w.submission + w.highFlying + w.powerMoves + w.technical : ℤ) / 6
  let defenseAvg : ℚ :=
    (w.strikeDefense + w.grappleDefense + w.aerialDefense + w.ringAwareness : ℤ) / 4
  let entertainmentAvg : ℚ :=
    (w.micSkills + w.charisma + w.look + w.starPower : ℤ) / 4
  let intangiblesAvg : ℚ :=
    (w.psychology + w.consistency + w.bigMatch + w.clutch : ℤ) / 4
  pyInt (physicalAvg * (20/100) + offenseAvg * (30/100) + defenseAvg * (15/100)
    + entertainmentAvg * (20/100) + intangiblesAvg * (15/100))

/-- `_condition_penalty`: rating penalty from participant condition
(0 down to −15). -/
def conditionPenalty (ws : List Wrestler) : ℚ :=
  if ws.isEmpty then 0
  else
    let avgCondition : ℚ := ((ws.map (·.condition)).sum : ℤ) / ws.length
    if avgCondition ≥ 50 then 0
    else if avgCondition ≥ 25 then -10 * (50 - avgCondition) / 25
    else -10 - 5 * (25 - avgCondition) / 25

/-- A championship title (`core/title.py`). -/
structure Title where
  id : ℤ
  name : String
  prestige : ℤ
  currentHolderId : Option ℤ := none
  deriving DecidableEq, Inhabited

/-- A stable/faction (`core/stable.py`). -/
structure Stable where
  id : ℤ
  name : String
  leaderId : ℤ
  memberIds : List ℤ
  isActive : Bool := true
  deriving DecidableEq, Inhabited

/-- A feud between two wrestlers (`core/feud.py`). -/
structure Feud where
  id : ℤ
  wrestlerAId : ℤ
  wrestlerBId : ℤ
  intensity : String := "heated"
  matchesRemaining : ℤ := 3
  totalMatches : ℤ := 0
  winsA : ℤ := 0
  winsB : ℤ := 0
  isActive : Bool := true
  blowoffMatchScheduled : Bool := false
  deriving DecidableEq, Inhabited

/-- `Feud.get_intensity_bonus`: +3 heated, +6 intense, +10 blood,
default +3 for unknown intensities. -/
def Feud.getIntensityBonus (f : Feud) : ℤ :=
  if f.intensity = "heated" then 3
  else if f.intensity = "intense" then 6
  else if f.intensity = "blood" then 10
  else 3

/-- `Feud.record_match`: bump the total, credit the winner if it is one of the
two feud participants, count down `matches_remaining`, escalate intensity at
totals 2 and 4, and deactivate when done. Returns the updated feud together
with the `True if the feud has ended` flag. -/
def Feud.recordMatch (f : Feud) (winnerId : ℤ) : Feud × Bool :=
  let f := { f with totalMatches := f.totalMatches + 1 }
  let f :=
    if winnerId = f.wrestlerAId then { f with winsA := f.winsA + 1 }
    else if winnerId = f.wrestlerBId then { f with winsB := f.winsB + 1 }
    else f
  let f := { f with matchesRemaining := f.matchesRemaining - 1 }
  let f :=
    if f.totalMatches ≥ 4 then { f with intensity := "blood" }
    else if f.totalMatches ≥ 2 then { f with intensity := "intense" }
    else f
  if f.blowoffMatchScheduled ∨ f.matchesRemaining ≤ 0 then
    ({ f with isActive := false }, true)
  else
    (f, false)

/-- Numeric rank of a feud intensity level: heated 0, intense 1, blood 2
(unknown strings rank lowest, like heated). -/
def intensityRank (s : String) : ℕ :=
  if s = "blood" then 2 else if s = "intense" then 1 else 0

/-- Intensity rank that `Feud.record_match`'s escalation rule implies for a
given total-match count. -/
def impliedRank (totalMatches : ℤ) : ℕ :=
  if totalMatches ≥ 4 then 2 else if totalMatches ≥ 2 then 1 else 0

/-- Fold a list of winner ids through `Feud.recordMatch`, keeping the state. -/
def Feud.recordAll (f : Feud) (winners : List ℤ) : Feud :=
  winners.foldl (fun s w => (s.recordMatch w).1) f

/-- A tag team (`core/tag_team.py`). -/
structure TagTeam where
  id : ℤ
  name : String
  memberIds : List ℤ
  chemistry : ℤ := 50
  wins : ℤ := 0
  losses : ℤ := 0
  isActive : Bool := true
  deriving DecidableEq, Inhabited

/-- `TagTeam.get_members`: roster entries whose id is among the member ids. -/
def TagTeam.getMembers (t : TagTeam) (roster : List Wrestler) : List Wrestler :=
  roster.filter (fun w => t.memberIds.contains w.id)

/-- The slice of `GameState` the match engine reads and writes. -/
structure GameSt where
  roster : List Wrestler := []
  titles : List Title := []
  feuds : List Feud := []
  stables : List Stable := []
  deriving DecidableEq, Inhabited

/-- `GameState.get_wrestler_stable`: first active stable containing the id. -/
def GameSt.getWrestlerStable (gs : GameSt) (wrestlerId : ℤ) : Option Stable :=
  gs.stables.find? (fun s => s.isActive && s.memberIds.contains wrestlerId)

/-- `GameState.get_wrestler_by_id`. -/
def GameSt.getWrestlerById (gs : GameSt) (wrestlerId : ℤ) : Option Wrestler :=
  gs.roster.find? (fun w => w.id == wrestlerId)

/-- `GameState.get_feud_between`: first active feud involving both ids. -/
def GameSt.getFeudBetween (gs : GameSt) (aId bId : ℤ) : Option Feud :=
  gs.feuds.find? (fun f =>
    f.isActive && (f.wrestlerAId == aId || f.wrestlerBId == aId)
      && (f.wrestlerAId == bId || f.wrestlerBId == bId))

/-- Outcome of `Match._check_stable_interference`. -/
inductive InterfOutcome where
  | noInterference
  | helped (byName : String) (beneficiaryIsP1 : Bool)
  | backfire (byName : String) (beneficiaryIsP1 : Bool)
  deriving DecidableEq, Inhabited

/-- The random draws consumed by a singles `Match.simulate` call:
`randint(-10, 10)` per side, the interference roll and the help/backfire roll
(both `random.random()`), and the chaos factor `uniform(0.9, 1.1)`. -/
structure SinglesRng where
  var1 : ℤ
  var2 : ℤ
  interfRoll : ℚ
  helpRoll : ℚ
  chaos : ℚ
  deriving DecidableEq, Inhabited

/-- Tail of `Match._check_stable_interference` once the interfering stable and
beneficiary are chosen: 20% base chance (+20% if the beneficiary is behind),
then 70% help / 30% backfire. -/
def interfRollOutcome (stab : Stable) (beneficiaryIsP1 : Bool) (scoreP1 scoreP2 : ℤ)
    (interfRoll helpRoll : ℚ) : InterfOutcome :=
  let isLosing :=
    (beneficiaryIsP1 = true ∧ scoreP1 < scoreP2) ∨
      (beneficiaryIsP1 = false ∧ scoreP2 < scoreP1)
  let baseChance : ℚ := if isLosing then 0.20 + 0.20 else 0.20
  if interfRoll > baseChance then .noInterference
  else if helpRoll < 0.70 then .helped stab.name beneficiaryIsP1
  else .backfire stab.name beneficiaryIsP1

/-- `Match._check_stable_interference`: pick the interfering stable (prefer the
side that is behind when both are in stables), then roll. -/
def checkStableInterference (gs : GameSt) (p1 p2 : Wrestler) (scoreP1 scoreP2 : ℤ)
    (interfRoll helpRoll : ℚ) : InterfOutcome :=
  match gs.getWrestlerStable p1.id, gs.getWrestlerStable p2.id with
  | none, none => .noInterference
  | some sa, some sb =>
      if scoreP1 < scoreP2 then
        interfRollOutcome sa true scoreP1 scoreP2 interfRoll helpRoll
      else
        interfRollOutcome sb false scoreP1 scoreP2 interfRoll helpRoll
  | some sa, none => interfRollOutcome sa true scoreP1 scoreP2 interfRoll helpRoll
  | none, some sb => interfRollOutcome sb false scoreP1 scoreP2 interfRoll helpRoll

/-- Result of `Match._determine_winner`; `score1`/`score2` are the final
values of the local `score_p1`/`score_p2` (after any distraction penalty). -/
structure WinnerOut where
  winnerIsP1 : Bool
  interferenceOccurred : Bool
  interferenceBy : Option String
  interferenceHelped : Bool
  interferenceBeneficiaryIsP1 : Option Bool
  score1 : ℤ
  score2 : ℤ
  deriving DecidableEq, Inhabited

/-- `Match._determine_winner`: overall rating + variance per side, stable
interference may force a DQ loss or distract (−5) the beneficiary's opponent;
otherwise the higher score wins and an exact tie goes to `p1`. -/
def determineWinner (gs : Option GameSt) (p1 p2 : Wrestler) (rng : SinglesRng) : WinnerOut :=
  let scoreP1 := p1.getOverallRating + rng.var1
  let scoreP2 := p2.getOverallRating + rng.var2
  let interf :=
    match gs with
    | some g => checkStableInterference g p1 p2 scoreP1 scoreP2 rng.interfRoll rng.helpRoll
    | none => .noInterference
  match interf with
  | .backfire byName beneficiaryIsP1 =>
      { winnerIsP1 := !beneficiaryIsP1
        interferenceOccurred := true
        interferenceBy := some byName
        interferenceHelped := false
        interferenceBeneficiaryIsP1 := some beneficiaryIsP1
        score1 := scoreP1
        score2 := scoreP2 }
  | .helped byName beneficiaryIsP1 =>
      let scoreP1 := if beneficiaryIsP1 then scoreP1 else scoreP1 - 5
      let scoreP2 := if beneficiaryIsP1 then scoreP2 - 5 else scoreP2
      { winnerIsP1 := decide (scoreP1 ≥ scoreP2)
        interferenceOccurred := true
        interferenceBy := some byName
        interferenceHelped := true
        interferenceBeneficiaryIsP1 := some beneficiaryIsP1
        score1 := scoreP1
        score2 := scoreP2 }
  | .noInterference =>
      { winnerIsP1 := decide (scoreP1 ≥ scoreP2)
        interferenceOccurred := false
        interferenceBy := none
        interferenceHelped := false
        interferenceBeneficiaryIsP1 := none
        score1 := scoreP1
        score2 := scoreP2 }

/-- Update the first title whose id matches (`next(...)` in the source finds
the first match; a missing title leaves the list unchanged). -/
def setTitleHolder (titleId holderId : ℤ) : List Title → List Title
  | [] => []
  | t :: ts =>
      if t.id = titleId then { t with currentHolderId := some holderId } :: ts
      else t :: setTitleHolder titleId holderId ts

/-- `Match._handle_title_change` (singles arm): writes the winner's id into the
referenced title whenever the match is a title match with a game state and the
match produced a winner. -/
def matchHandleTitleChange (isTitleMatch hasGameState : Bool) (titleId : Option ℤ)
    (winnerId : ℤ) (titles : List Title) : List Title :=
  if ¬isTitleMatch ∨ ¬hasGameState then titles
  else
    match titleId with
    | none => titles
    | some tid => setTitleHolder tid winnerId titles

/-- `Match._calculate_match_rating` (singles). -/
def calcMatchRating (p1 p2 : Wrestler) (isSteelCage isTitleMatch : Bool) (feud : Option Feud)
    (interferenceOccurred interferenceHelped : Bool) (chaos : ℚ) : ℤ :=
  let workP1 : ℚ := ((p1.brawl + p1.tech + p1.air : ℤ) : ℚ) / 3
  let workP2 : ℚ := ((p2.brawl + p2.tech + p2.air : ℤ) : ℚ) / 3
  let psychAvg : ℚ := ((p1.psych + p2.psych : ℤ) : ℚ) / 2
  let baseScore := (workP1 + workP2 + psychAvg + psychAvg) / 4
  let charismaBonus : ℚ := ((p1.charisma + p2.charisma : ℤ) : ℚ) / 10
  let s := baseScore + charismaBonus
  let s := if isSteelCage then s + 5 else s
  let s := if isTitleMatch then s + 5 else s
  let s :=
    match feud with
    | some f => if f.isActive then s + (f.getIntensityBonus : ℚ) else s
    | none => s
  let s :=
    if interferenceOccurred then (if interferenceHelped then s + 3 else s - 5) else s
  let s := s + conditionPenalty [p1, p2]
  clampRating (s * chaos)

/-- Configuration of a singles `Match` (the fields of `Match.__init__` that the
singles path reads; `feud` is the `match.feud` the show attaches). -/
structure SinglesCfg where
  p1 : Wrestler
  p2 : Wrestler
  isSteelCage : Bool := false
  isTitleMatch : Bool := false
  titleId : Option ℤ := none
  feud : Option Feud := none
  deriving DecidableEq, Inhabited

/-- Result of a singles `Match.simulate` call: the winner data, the rating and
the (possibly title-updated) game state. -/
structure SinglesResult where
  out : WinnerOut
  rating : ℤ
  gsAfter : Option GameSt
  deriving DecidableEq, Inhabited

/-- `Match.simulate`, singles branch: determine the winner, compute the
rating, then apply `_handle_title_change`. -/
def matchSimulateSingles (gs : Option GameSt) (cfg : SinglesCfg) (rng : SinglesRng) :
    SinglesResult :=
  let out := determineWinner gs cfg.p1 cfg.p2 rng
  let activeFeud :=
    match cfg.feud with
    | some f => if f.isActive then some f else none
    | none => none
  let rating :=
    calcMatchRating cfg.p1 cfg.p2 cfg.isSteelCage cfg.isTitleMatch activeFeud
      out.interferenceOccurred out.interferenceHelped rng.chaos
  let winnerId := if out.winnerIsP1 then cfg.p1.id else cfg.p2.id
  let gsAfter :=
    gs.map fun g =>
      { g with
          titles := matchHandleTitleChange cfg.isTitleMatch true cfg.titleId winnerId g.titles }
  { out := out, rating := rating, gsAfter := gsAfter }

/-- `Match._calculate_tag_match_rating`. -/
def calcTagMatchRating (teamA teamB : TagTeam) (roster : List Wrestler)
    (isSteelCage isTitleMatch : Bool) (chaos : ℚ) : ℤ :=
  let membersA := teamA.getMembers roster
  let membersB := teamB.getMembers roster
  let allWrestlers := membersA ++ membersB
  if allWrestlers.length ≠ 4 then 50
  else
    let totalWork : ℚ :=
      (allWrestlers.map (fun w => ((w.brawl + w.tech + w.air : ℤ) : ℚ) / 3)).sum
    let avgWork := totalWork / 4
    let avgPsych : ℚ := (((allWrestlers.map (·.psych)).sum : ℤ) : ℚ) / 4
    let baseScore := (avgWork + avgPsych) / 2
    let avgCharisma : ℚ := (((allWrestlers.map (·.charisma)).sum : ℤ) : ℚ) / 4
    let charismaBonus := avgCharisma / 10
    let avgChemistry : ℚ := ((teamA.chemistry + teamB.chemistry : ℤ) : ℚ) / 2
    let chemistryModifier : ℚ :=
      if avgChemistry ≥ 80 then 5 else if avgChemistry ≤ 20 then -5 else 0
    let s := baseScore + charismaBonus + chemistryModifier
    let s := if isSteelCage then s + 5 else s
    let s := if isTitleMatch then s + 5 else s
    let s := s + conditionPenalty allWrestlers
    clampRating (s * chaos)

/-- `MultiManMatch._calculate_rating` (Triple Threat has 3 wrestlers, bonus +3;
Fatal 4-Way bonus +5). -/
def multiManRating (wrestlers : List Wrestler) (isTitleMatch : Bool) (chaos : ℚ) : ℤ :=
  let n : ℚ := wrestlers.length
  let totalWork : ℚ := (wrestlers.map (fun w => ((w.brawl + w.tech + w.air : ℤ) : ℚ) / 3)).sum
  let avgWork := totalWork / n
  let avgPsych : ℚ := (((wrestlers.map (·.psych)).sum : ℤ) : ℚ) / n
  let baseScore := (avgWork + avgPsych * 1.5) / 2.5
  let avgCharisma : ℚ := (((wrestlers.map (·.charisma)).sum : ℤ) : ℚ) / n
  let charismaBonus := avgCharisma / 10
  let matchBonus : ℚ := if wrestlers.length = 3 then 3 else 5
  let titleBonus : ℚ := if isTitleMatch then 5 else 0
  let s := baseScore + charismaBonus + matchBonus + titleBonus
  let s := s + conditionPenalty wrestlers
  clampRating (s * chaos)

/-- `LadderMatch._calculate_rating`. -/
def ladderRating (wrestlers : List Wrestler) (isTitleMatch : Bool) (chaos : ℚ) : ℤ :=
  let n : ℚ := wrestlers.length
  let totalWork : ℚ :=
    (wrestlers.map (fun w => ((w.brawl + w.tech + w.air * 2 : ℤ) : ℚ) / 4)).sum
  let avgWork := totalWork / n
  let avgPsych : ℚ := (((wrestlers.map (·.psych)).sum : ℤ) : ℚ) / n
  let baseScore := (avgWork + avgPsych) / 2
  let avgCharisma : ℚ := (((wrestlers.map (·.charisma)).sum : ℤ) : ℚ) / n
  let charismaBonus := avgCharisma / 10
  let ladderBonus : ℚ := 8
  let participantBonus : ℚ := ((wrestlers.length : ℤ) - 2) * 2
  let titleBonus : ℚ := if isTitleMatch then 5 else 0
  let s := baseScore + charismaBonus + ladderBonus + participantBonus + titleBonus
  let s := s + conditionPenalty wrestlers
  clampRating (s * chaos)

/-- `IronManMatch._calculate_rating`. -/
def ironManRating (wa wb : Wrestler) (fallsA fallsB : ℤ) (isTitleMatch : Bool) (chaos : ℚ) : ℤ :=
  let workA : ℚ := ((wa.brawl + wa.tech + wa.air : ℤ) : ℚ) / 3
  let workB : ℚ := ((wb.brawl + wb.tech + wb.air : ℤ) : ℚ) / 3
  let avgWork := (workA + workB) / 2
  let avgPsych : ℚ := ((wa.psych + wb.psych : ℤ) : ℚ) / 2
  let avgStamina : ℚ := ((wa.stamina + wb.stamina : ℤ) : ℚ) / 2
  let baseScore := (avgWork + avgPsych * 1.5 + avgStamina * 0.5) / 3
  let avgCharisma : ℚ := ((wa.charisma + wb.charisma : ℤ) : ℚ) / 2
  let charismaBonus := avgCharisma / 10
  let ironManBonus : ℚ := 8
  let fallsBonus : ℚ := (min 10 ((fallsA + fallsB) * 2) : ℤ)
  let titleBonus : ℚ := if isTitleMatch then 5 else 0
  let s := baseScore + charismaBonus + ironManBonus + fallsBonus + titleBonus
  let s := s + conditionPenalty [wa, wb]
  clampRating (s * chaos)

/-- `EliminationChamberMatch._calculate_rating` (always 6 wrestlers). -/
def chamberRating (wrestlers : List Wrestler) (isTitleMatch : Bool) (chaos : ℚ) : ℤ :=
  let avgBrawl : ℚ := (((wrestlers.map (·.brawl)).sum : ℤ) : ℚ) / 6
  let avgStamina : ℚ := (((wrestlers.map (·.stamina)).sum : ℤ) : ℚ) / 6
  let avgPsych : ℚ := (((wrestlers.map (·.psych)).sum : ℤ) : ℚ) / 6
  let avgCharisma : ℚ := (((wrestlers.map (·.charisma)).sum : ℤ) : ℚ) / 6
  let baseScore := (avgBrawl + avgStamina + avgPsych) / 3
  let charismaBonus := avgCharisma / 10
  let chamberBonus : ℚ := 12
  let titleBonus : ℚ := if isTitleMatch then 5 else 0
  let s := baseScore + charismaBonus + chamberBonus + titleBonus
  let s := s + conditionPenalty wrestlers
  clampRating (s * chaos)

/-- `MoneyInTheBankMatch._calculate_rating`. -/
def mitbRating (wrestlers : List Wrestler) (chaos : ℚ) : ℤ :=
  let n : ℚ := wrestlers.length
  let avgAir : ℚ := (((wrestlers.map (·.air)).sum : ℤ) : ℚ) / n
  let totalWork : ℚ := (wrestlers.map (fun w => ((w.brawl + w.tech + w.air : ℤ) : ℚ) / 3)).sum
  let avgWork := totalWork / n
  let avgPsych : ℚ := (((wrestlers.map (·.psych)).sum : ℤ) : ℚ) / n
  let baseScore := (avgAir * 1.5 + avgWork + avgPsych) / 3.5
  let avgCharisma : ℚ := (((wrestlers.map (·.charisma)).sum : ℤ) : ℚ) / n
  let charismaBonus := avgCharisma / 10
  let mitbBonus : ℚ := 15
  let participantBonus : ℚ := ((wrestlers.length : ℤ) - 6) * 2
  let s := baseScore + charismaBonus + mitbBonus + participantBonus
  let s := s + conditionPenalty wrestlers
  clampRating (s * chaos)

/-- `RoyalRumbleMatch._calculate_rating` (always 10 wrestlers). -/
def rumbleRating (wrestlers : List Wrestler) (chaos : ℚ) : ℤ :=
  let totalStar : ℚ := (((wrestlers.map (·.starPower)).sum : ℤ) : ℚ)
  let totalCharisma : ℚ := (((wrestlers.map (·.charisma)).sum : ℤ) : ℚ)
  let totalPsych : ℚ := (((wrestlers.map (·.psych)).sum : ℤ) : ℚ)
  let avgStar := totalStar / 10
  let avgCharisma := totalCharisma / 10
  let avgPsych := totalPsych / 10
  let baseScore := (avgStar + avgCharisma + avgPsych) / 3
  let baseScore := baseScore + 10
  let baseScore := baseScore + conditionPenalty wrestlers
  clampRating (baseScore * chaos)

/-- The fields of `LadderMatch.__init__` that later code reads. -/
structure LadderCfg where
  wrestlers : List Wrestler
  matchType : String
  deriving DecidableEq, Inhabited

/-- `LadderMatch.__init__`: rejects fewer than 2 wrestlers with a
`ValueError`, otherwise names the match from the participant count
(2 → plain, 3–4 → n-way, 5+ → Money in the Bank Ladder Match). -/
def ladderMatchInit (wrestlers : List Wrestler) : Except String LadderCfg :=
  if wrestlers.length < 2 then .error "Ladder match requires at least 2 wrestlers"
  else
    .ok
      { wrestlers := wrestlers
        matchType :=
          if wrestlers.length = 2 then "Ladder Match"
          else if wrestlers.length ≤ 4 then toString wrestlers.length ++ "-Way Ladder Match"
          else "Money in the Bank Ladder Match" }

/-- Python truthiness of the optional int `title_id` (`None` and `0` are
falsy). -/
def truthyId : Option ℤ → Bool
  | none => false
  | some t => t != 0

/-- First title with the given id (`next((t for t in titles if t.id == tid), None)`). -/
def findTitle (tid : ℤ) (titles : List Title) : Option Title :=
  titles.find? (fun t => t.id == tid)

/-- A recorded fall in an Iron Man match (`fall_log` entry; the `score` string
is kept as the pair of fall counts it formats). -/
structure IronFall where
  wrestlerName : String
  time : ℤ
  isPinfall : Bool
  scoreA : ℤ
  scoreB : ℤ
  deriving DecidableEq, Inhabited

/-- Random draws for one Iron Man fall checkpoint, indexed by checkpoint:
`randint(-15, 15)` per side, the `random.random()` fall roll, and the
uniform pinfall/submission choice. -/
structure IronRng where
  varA : ℕ → ℤ
  varB : ℕ → ℤ
  fallRoll : ℕ → ℚ
  fallTypeIsPin : ℕ → Bool

/-- Running state of the Iron Man checkpoint loop. -/
structure IronSt where
  currentTime : ℚ
  fallsA : ℤ
  fallsB : ℤ
  fallLog : List IronFall
  deriving DecidableEq, Inhabited

/-- `IronManMatch.simulate` fall-opportunity count:
`max(3, int(time_limit / 10) + int(avg_stamina / 40))`. -/
def ironManNumFallChances (timeLimit : ℤ) (wa wb : Wrestler) : ℕ :=
  let avgStamina : ℚ := ((wa.stamina + wb.stamina : ℤ) : ℚ) / 2
  (max 3 (pyInt ((timeLimit : ℚ) / 10) + pyInt (avgStamina / 40))).toNat

/-- One fall checkpoint of `IronManMatch.simulate`: advance the clock, score
both sides (variance, late-match stamina weighting, psychology), and award a
fall to the higher side with probability `|score_diff| / 100`. -/
def ironManSegment (wa wb : Wrestler) (timeLimit : ℤ) (timePerSegment : ℚ)
    (rng : IronRng) (st : IronSt) (i : ℕ) : IronSt :=
  let currentTime := st.currentTime + timePerSegment
  let scoreA : ℚ := ((wa.getOverallRating + rng.varA i : ℤ) : ℚ)
  let scoreB : ℚ := ((wb.getOverallRating + rng.varB i : ℤ) : ℚ)
  let timeFactor : ℚ := currentTime / (timeLimit : ℚ)
  let scoreA := scoreA + (wa.stamina : ℚ) * timeFactor * 0.2
  let scoreB := scoreB + (wb.stamina : ℚ) * timeFactor * 0.2
  let scoreA := scoreA + (wa.psych : ℚ) / 10
  let scoreB := scoreB + (wb.psych : ℚ) / 10
  let scoreDiff := |scoreA - scoreB|
  if rng.fallRoll i < scoreDiff / 100 then
    let fallTime := pyInt currentTime
    if scoreA > scoreB then
      let fallsA := st.fallsA + 1
      { st with
          currentTime := currentTime
          fallsA := fallsA
          fallLog := st.fallLog ++
            [⟨wa.name, fallTime, rng.fallTypeIsPin i, fallsA, st.fallsB⟩] }
    else
      let fallsB := st.fallsB + 1
      { st with
          currentTime := currentTime
          fallsB := fallsB
          fallLog := st.fallLog ++
            [⟨wb.name, fallTime, rng.fallTypeIsPin i, st.fallsA, fallsB⟩] }
  else
    { st with currentTime := currentTime }

/-- Result of `IronManMatch.simulate` (`winnerIsA = some true` means wrestler
A won, `none` means no winner). -/
structure IronResult where
  winnerIsA : Option Bool
  isDraw : Bool
  fallsA : ℤ
  fallsB : ℤ
  fallLog : List IronFall
  rating : ℤ
  gsAfter : Option GameSt
  deriving Inhabited

/-- `IronManMatch.simulate`: run all fall checkpoints, pick the winner by fall
count (equal counts are a draw with no winner), compute the rating, and update
the title only when there is a winner. -/
def ironManSimulate (wa wb : Wrestler) (timeLimit : ℤ) (gs : Option GameSt)
    (isTitleMatch : Bool) (titleId : Option ℤ) (rng : IronRng) (chaos : ℚ) : IronResult :=
  let numFallChances := ironManNumFallChances timeLimit wa wb
  let timePerSegment : ℚ := (timeLimit : ℚ) / ((numFallChances : ℚ) + 1)
  let final :=
    (List.range numFallChances).foldl (ironManSegment wa wb timeLimit timePerSegment rng)
      ⟨0, 0, 0, []⟩
  let winnerIsA : Option Bool :=
    if final.fallsA > final.fallsB then some true
    else if final.fallsB > final.fallsA then some false
    else none
  let isDraw := winnerIsA.isNone
  let rating := ironManRating wa wb final.fallsA final.fallsB isTitleMatch chaos
  let gsAfter :=
    gs.map fun g =>
      match winnerIsA, titleId with
      | some winIsA, some tid =>
          if isTitleMatch ∧ truthyId (some tid) then
            { g with titles := setTitleHolder tid (if winIsA then wa.id else wb.id) g.titles }
          else g
      | _, _ => g
  { winnerIsA := winnerIsA, isDraw := isDraw, fallsA := final.fallsA, fallsB := final.fallsB,
    fallLog := final.fallLog, rating := rating, gsAfter := gsAfter }

/-- An active Royal Rumble entrant (`{'wrestler': ..., 'entry': ..., 'fatigue': ...}`). -/
structure REntrant where
  w : Wrestler
  entry : ℕ
  fatigue : ℕ
  deriving DecidableEq, Inhabited

/-- A Royal Rumble elimination record. -/
structure RElim where
  w : Wrestler
  eliminatedBy : Wrestler
  entryNumber : ℕ
  eliminationOrder : ℕ
  deriving DecidableEq, Inhabited

/-- Random draws for the Royal Rumble loop, indexed by loop iteration:
the 40% entry roll, a `randint(-15, 15)` survival draw per active slot, and the
`random.choice` pick of the eliminator among the survivors. -/
structure RumbleRng where
  enterRoll : ℕ → Bool
  survRoll : ℕ → ℕ → ℤ
  elimChoice : ℕ → ℕ

/-- State of the Royal Rumble entry-and-elimination loop. -/
structure RumbleSt where
  active : List REntrant
  nextEntry : ℕ
  elims : List RElim
  step : ℕ
  deriving DecidableEq, Inhabited

/-- Royal Rumble survival score:
`(stamina + brawl + psych) / 3 - fatigue * 1.5 + randint(-15, 15)`. -/
def rumbleSurvivalScore (e : REntrant) (draw : ℤ) : ℚ :=
  ((e.w.stamina + e.w.brawl + e.w.psych : ℤ) : ℚ) / 3 - (e.fatigue : ℚ) * 1.5 + (draw : ℤ)

/-- Index of the first minimal element (the element Python's stable ascending
sort places first). -/
def argminIdx : List ℚ → ℕ
  | [] => 0
  | x :: xs =>
    match xs with
    | [] => 0
    | _ :: _ =>
      let j := argminIdx xs
      if x ≤ xs.getD j 0 then 0 else j + 1

/-- One iteration of the `RoyalRumbleMatch.simulate` loop: maybe admit the
next entrant (forced below 6 active, else a 40% roll), increment everyone's
fatigue, and (with more than one active) eliminate the lowest survival score,
crediting a randomly chosen survivor. -/
def rumbleStep (wrestlers : List Wrestler) (rng : RumbleRng) (st : RumbleSt) : RumbleSt :=
  let (active, nextEntry) :=
    if st.nextEntry < 10 ∧ (st.active.length < 6 ∨ rng.enterRoll st.step) then
      (st.active ++ [⟨wrestlers.getD st.nextEntry default, st.nextEntry + 1, 0⟩],
        st.nextEntry + 1)
    else (st.active, st.nextEntry)
  let active := active.map fun e => { e with fatigue := e.fatigue + 1 }
  if active.length > 1 then
    let scores := active.enum.map fun p => rumbleSurvivalScore p.2 (rng.survRoll st.step p.1)
    let idx := argminIdx scores
    let eliminated := active.getD idx default
    let remaining := active.eraseIdx idx
    let eliminator := remaining.getD (rng.elimChoice st.step % remaining.length) default
    { active := remaining
      nextEntry := nextEntry
      elims := st.elims ++
        [⟨eliminated.w, eliminator.w, eliminated.entry, st.elims.length + 1⟩]
      step := st.step + 1 }
  else
    { active := active, nextEntry := nextEntry, elims := st.elims, step := st.step + 1 }

/-- The `while len(active) > 1 or next_entry < 10` loop of
`RoyalRumbleMatch.simulate`, with explicit fuel (the loop terminates; the fuel
bound is discharged in the theorems below). -/
def rumbleLoop (wrestlers : List Wrestler) (rng : RumbleRng) : ℕ → RumbleSt → RumbleSt
  | 0, st => st
  | fuel + 1, st =>
    if st.active.length > 1 ∨ st.nextEntry < 10 then
      rumbleLoop wrestlers rng fuel (rumbleStep wrestlers rng st)
    else st

/-- Termination measure of the Rumble loop. -/
def rumbleMeasure (st : RumbleSt) : ℕ :=
  2 * (10 - st.nextEntry) + (st.active.length - 1)

/-- Initial Rumble state: entrants #1 and #2 start in the ring. -/
def rumbleInit (wrestlers : List Wrestler) : RumbleSt :=
  { active := [⟨wrestlers.getD 0 default, 1, 0⟩, ⟨wrestlers.getD 1 default, 2, 0⟩]
    nextEntry := 2
    elims := []
    step := 0 }

/-- `RoyalRumbleMatch.simulate` over a given fuel: the winner is the last
entrant standing; also returns the elimination log and the rating. -/
def rumbleSimulate (wrestlers : List Wrestler) (rng : RumbleRng) (chaos : ℚ) (fuel : ℕ) :
    Wrestler × List RElim × ℤ :=
  let final := rumbleLoop wrestlers rng fuel (rumbleInit wrestlers)
  ((final.active.headD default).w, final.elims, rumbleRating wrestlers chaos)

/-- `RoyalRumbleMatch.__init__`: exactly 10 wrestlers or `ValueError`. -/
def rumbleMatchInit (wrestlers : List Wrestler) : Except String (List Wrestler) :=
  if wrestlers.length ≠ 10 then .error "Royal Rumble requires exactly 10 wrestlers"
  else .ok wrestlers

/-- Random draws of `Wrestler.check_injury_risk`: the `randint(1, 100)`
injury roll and the `randint(2, max_weeks)` injury-length draw. -/
structure InjuryRng where
  roll : ℤ
  weeks : ℤ
  deriving DecidableEq, Inhabited

/-- `Wrestler.check_injury_risk`: only possible below condition 25; chance
grows as condition drops and durability shrinks. -/
def Wrestler.checkInjuryRisk (w : Wrestler) (rng : InjuryRng) : Wrestler :=
  if w.condition ≥ 25 ∨ w.isInjured then w
  else
    let baseChance : ℚ := (((25 - w.condition) * 2 : ℤ) : ℚ)
    let durabilityFactor : ℚ := max 0.25 (2.0 - (w.durability : ℚ) / 50)
    let injuryChance := baseChance * durabilityFactor
    if rng.roll ≤ pyInt injuryChance then
      { w with isInjured := true, injuryWeeksRemaining := rng.weeks }
    else w

/-- `Wrestler.update_after_match`: win/loss tally, stamina and condition
drain, morale and heat movement, then the injury roll. -/
def Wrestler.updateAfterMatch (w : Wrestler) (isWinner : Bool) (matchRating : ℤ)
    (durationCost : ℤ) (rng : InjuryRng) : Wrestler :=
  let w :=
    if isWinner then { w with wins := w.wins + 1 } else { w with losses := w.losses + 1 }
  let w := { w with stamina := max 0 (w.stamina - durationCost) }
  let durabilityModifier : ℚ := 1.5 - (w.durability : ℚ) / 100
  let conditionCost := max 1 (pyInt (((durationCost : ℚ) * 0.4) * durabilityModifier))
  let w := { w with condition := max 0 (w.condition - conditionCost) }
  let w :=
    if isWinner then
      let w := { w with morale := min 100 (w.morale + 5) }
      let heatGain := pyInt ((matchRating : ℚ) / 10)
      { w with heat := min 100 (w.heat + heatGain) }
    else
      let w := { w with morale := max 0 (w.morale - 3) }
      if matchRating > 80 then { w with heat := min 100 (w.heat + 2) }
      else { w with heat := max 0 (w.heat - 2) }
  w.checkInjuryRisk rng

/-- Apply a function to the first roster entry with the given id (Python
mutates the object `get_wrestler_by_id` returns). -/
def updateFirstById (wid : ℤ) (f : Wrestler → Wrestler) : List Wrestler → List Wrestler
  | [] => []
  | w :: ws => if w.id = wid then f w :: ws else w :: updateFirstById wid f ws

/-- `Show._apply_stable_heat`: +2 heat for the winner's stablemates, −1 for
the loser's (the participants themselves excluded). -/
def applyStableHeat (gs : GameSt) (winner loser : Wrestler) : GameSt :=
  let roster :=
    match gs.getWrestlerStable winner.id with
    | some st =>
        st.memberIds.foldl
          (fun r mid =>
            if mid ≠ winner.id then
              updateFirstById mid (fun m => { m with heat := min 100 (m.heat + 2) }) r
            else r)
          gs.roster
    | none => gs.roster
  let roster :=
    match gs.getWrestlerStable loser.id with
    | some st =>
        st.memberIds.foldl
          (fun r mid =>
            if mid ≠ loser.id then
              updateFirstById mid (fun m => { m with heat := max 0 (m.heat - 1) }) r
            else r)
          roster
    | none => roster
  { gs with roster := roster }

/-- A game date `{"year": ..., "month": ..., "week": ...}`. -/
structure DateRec where
  year : ℤ
  month : ℤ
  week : ℤ
  deriving DecidableEq, Inhabited

/-- A title reign record (`core/records.py`). -/
structure TitleReign where
  id : ℤ
  titleId : ℤ
  titleName : String
  holderId : ℤ
  holderName : String
  holderType : String
  wonDate : DateRec
  lostDate : Option DateRec := none
  successfulDefenses : ℤ := 0
  deriving DecidableEq, Inhabited

/-- Per-wrestler streak and PPV/TV records (`core/records.py`). -/
structure WrestlerRecords where
  wrestlerId : ℤ
  currentWinStreak : ℤ := 0
  currentLossStreak : ℤ := 0
  longestWinStreak : ℤ := 0
  longestLossStreak : ℤ := 0
  ppvWins : ℤ := 0
  ppvLosses : ℤ := 0
  tvWins : ℤ := 0
  tvLosses : ℤ := 0
  deriving DecidableEq, Inhabited

/-- `WrestlerRecords.record_win`. -/
def WrestlerRecords.recordWin (r : WrestlerRecords) (isPpv : Bool) : WrestlerRecords :=
  let r := { r with currentWinStreak := r.currentWinStreak + 1, currentLossStreak := 0 }
  let r :=
    if r.currentWinStreak > r.longestWinStreak then
      { r with longestWinStreak := r.currentWinStreak }
    else r
  if isPpv then { r with ppvWins := r.ppvWins + 1 } else { r with tvWins := r.tvWins + 1 }

/-- `WrestlerRecords.record_loss`. -/
def WrestlerRecords.recordLoss (r : WrestlerRecords) (isPpv : Bool) : WrestlerRecords :=
  let r := { r with currentLossStreak := r.currentLossStreak + 1, currentWinStreak := 0 }
  let r :=
    if r.currentLossStreak > r.longestLossStreak then
      { r with longestLossStreak := r.currentLossStreak }
    else r
  if isPpv then { r with ppvLosses := r.ppvLosses + 1 } else { r with tvLosses := r.tvLosses + 1 }

/-- A match history entry (`core/records.py`). -/
structure MatchHistoryEntry where
  id : ℤ
  date : DateRec
  showName : String
  isPpv : Bool
  matchType : String
  participantIds : List ℤ
  participantNames : List String
  winnerIds : List ℤ
  winnerNames : List String
  loserIds : List ℤ
  loserNames : List String
  rating : ℤ
  stars : ℚ
  isTitleMatch : Bool := false
  titleId : Option ℤ := none
  titleName : String := ""
  titleChanged : Bool := false
  deriving DecidableEq, Inhabited

/-- The records store (`RecordsManager`); the wrestler-records dict is kept as
an insertion-ordered association list. -/
structure RecordsManager where
  matchHistory : List MatchHistoryEntry := []
  wrestlerRecords : List (ℤ × WrestlerRecords) := []
  titleReigns : List TitleReign := []
  nextMatchId : ℤ := 1
  nextReignId : ℤ := 1
  deriving DecidableEq, Inhabited

/-- Apply a function to the first association-list entry with the given key. -/
def updateFirstKey (k : ℤ) (f : WrestlerRecords → WrestlerRecords) :
    List (ℤ × WrestlerRecords) → List (ℤ × WrestlerRecords)
  | [] => []
  | p :: ps => if p.1 = k then (p.1, f p.2) :: ps else p :: updateFirstKey k f ps

/-- `RecordsManager.record_wrestler_win` (get-or-create the records, then
`record_win`). -/
def RecordsManager.recordWrestlerWin (rm : RecordsManager) (wid : ℤ) (isPpv : Bool) :
    RecordsManager :=
  if (rm.wrestlerRecords.find? (fun p => p.1 == wid)).isSome then
    { rm with wrestlerRecords := updateFirstKey wid (·.recordWin isPpv) rm.wrestlerRecords }
  else
    { rm with
        wrestlerRecords :=
          rm.wrestlerRecords ++ [(wid, WrestlerRecords.recordWin { wrestlerId := wid } isPpv)] }

/-- `RecordsManager.record_wrestler_loss`. -/
def RecordsManager.recordWrestlerLoss (rm : RecordsManager) (wid : ℤ) (isPpv : Bool) :
    RecordsManager :=
  if (rm.wrestlerRecords.find? (fun p => p.1 == wid)).isSome then
    { rm with wrestlerRecords := updateFirstKey wid (·.recordLoss isPpv) rm.wrestlerRecords }
  else
    { rm with
        wrestlerRecords :=
          rm.wrestlerRecords ++ [(wid, WrestlerRecords.recordLoss { wrestlerId := wid } isPpv)] }

/-- Apply a function to the first reign satisfying the predicate. -/
def updateFirstReign (p : TitleReign → Bool) (f : TitleReign → TitleReign) :
    List TitleReign → List TitleReign
  | [] => []
  | r :: rs => if p r then f r :: rs else r :: updateFirstReign p f rs

/-- An ongoing reign of the given holder over the given title
(`reign.title_id == title_id and reign.holder_id == holder_id and
reign.lost_date is None`). -/
def isOpenReignFor (tid hid : ℤ) (r : TitleReign) : Bool :=
  r.titleId == tid && r.holderId == hid && r.lostDate.isNone

/-- `RecordsManager.record_title_defense`: walk the reigns in reverse and bump
`successful_defenses` of the first open matching reign found. -/
def RecordsManager.recordTitleDefense (rm : RecordsManager) (tid hid : ℤ) : RecordsManager :=
  { rm with
      titleReigns :=
        (updateFirstReign (isOpenReignFor tid hid)
            (fun r => { r with successfulDefenses := r.successfulDefenses + 1 })
            rm.titleReigns.reverse).reverse }

/-- `RecordsManager.end_title_reign`: set `lost_date` of the most recent open
matching reign. -/
def RecordsManager.endTitleReign (rm : RecordsManager) (tid hid : ℤ) (date : DateRec) :
    RecordsManager :=
  { rm with
      titleReigns :=
        (updateFirstReign (isOpenReignFor tid hid) (fun r => { r with lostDate := some date })
            rm.titleReigns.reverse).reverse }

/-- `RecordsManager.start_title_reign`. -/
def RecordsManager.startTitleReign (rm : RecordsManager) (tid : ℤ) (titleName : String)
    (hid : ℤ) (holderName : String) (holderType : String) (date : DateRec) : RecordsManager :=
  { rm with
      titleReigns :=
        rm.titleReigns ++
          [{ id := rm.nextReignId, titleId := tid, titleName := titleName, holderId := hid,
             holderName := holderName, holderType := holderType, wonDate := date }]
      nextReignId := rm.nextReignId + 1 }

/-- The state `Show.run` threads through a card: the game state, the records
store, and the current date. -/
structure ShowSt where
  gs : GameSt
  records : RecordsManager
  year : ℤ := 1
  month : ℤ := 1
  week : ℤ := 1
  deriving DecidableEq, Inhabited

/-- Apply a function to the first feud with the given id (the object
`get_feud_between` returned). -/
def updateFirstFeudById (fid : ℤ) (f : Feud → Feud) : List Feud → List Feud
  | [] => []
  | fd :: fds => if fd.id = fid then f fd :: fds else fd :: updateFirstFeudById fid f fds

/-- One singles-match iteration of `Show.run`: snapshot the title holder,
attach the feud, simulate, detect a title change, record the feud result,
update both wrestlers and the stablemates' heat, append the history entry and
streaks, and finally either track the title change or log a successful
defense. -/
def showRunSinglesStep (showName : String) (isPpv : Bool) (cfg0 : SinglesCfg)
    (rng : SinglesRng) (injRngP1 injRngP2 : InjuryRng) (st : ShowSt) : ShowSt :=
  let date : DateRec := ⟨st.year, st.month, st.week⟩
  -- Track original title holder before the match
  let titleBefore : Option Title :=
    if cfg0.isTitleMatch ∧ truthyId cfg0.titleId then
      match cfg0.titleId with
      | some tid => findTitle tid st.gs.titles
      | none => none
    else none
  let originalHolderId : Option ℤ := titleBefore.bind (·.currentHolderId)
  let titleName : String := (titleBefore.map (·.name)).getD ""
  -- Check for a feud between the wrestlers
  let cfg := { cfg0 with feud := st.gs.getFeudBetween cfg0.p1.id cfg0.p2.id }
  -- Run the simulation
  let res := matchSimulateSingles (some st.gs) cfg rng
  let gs1 := res.gsAfter.getD st.gs
  let winner := if res.out.winnerIsP1 then cfg.p1 else cfg.p2
  let loser := if res.out.winnerIsP1 then cfg.p2 else cfg.p1
  -- Detect title change
  let titleChanged : Bool :=
    if cfg.isTitleMatch ∧ truthyId cfg.titleId then
      match cfg.titleId with
      | some tid =>
          match findTitle tid gs1.titles with
          | some t => decide (t.currentHolderId ≠ originalHolderId)
          | none => false
      | none => false
    else false
  -- Process feud state
  let gs2 :=
    match cfg.feud with
    | some f =>
        if f.isActive then
          { gs1 with
              feuds := updateFirstFeudById f.id (fun fd => (fd.recordMatch winner.id).1) gs1.feuds }
        else gs1
    | none => gs1
  -- Apply consequences to wrestlers
  let gs3 :=
    { gs2 with
        roster :=
          updateFirstById cfg.p2.id
            (fun w => w.updateAfterMatch (!res.out.winnerIsP1) res.rating 10 injRngP2)
            (updateFirstById cfg.p1.id
              (fun w => w.updateAfterMatch res.out.winnerIsP1 res.rating 10 injRngP1)
              gs2.roster) }
  -- Apply shared heat to stablemates
  let gs4 := applyStableHeat gs3 winner loser
  -- Record match history and streaks
  let entry : MatchHistoryEntry :=
    { id := st.records.nextMatchId
      date := date
      showName := showName
      isPpv := isPpv
      matchType := "Singles"
      participantIds := [cfg.p1.id, cfg.p2.id]
      participantNames := [cfg.p1.name, cfg.p2.name]
      winnerIds := [winner.id]
      winnerNames := [winner.name]
      loserIds := [loser.id]
      loserNames := [loser.name]
      rating := res.rating
      stars := (res.rating : ℚ) / 20
      isTitleMatch := cfg.isTitleMatch
      titleId := cfg.titleId
      titleName := titleName
      titleChanged := titleChanged }
  let records1 :=
    { st.records with
        matchHistory := st.records.matchHistory ++ [entry]
        nextMatchId := st.records.nextMatchId + 1 }
  let records2 := (records1.recordWrestlerWin winner.id isPpv).recordWrestlerLoss loser.id isPpv
  -- Handle title reign tracking
  let records3 :=
    if cfg.isTitleMatch ∧ truthyId cfg.titleId then
      match cfg.titleId with
      | some tid =>
          if titleChanged then
            let r :=
              match originalHolderId with
              | some oldHolder => records2.endTitleReign tid oldHolder date
              | none => records2
            r.startTitleReign tid titleName winner.id winner.name "wrestler" date
          else
            match originalHolderId with
            | some oldHolder => records2.recordTitleDefense tid oldHolder
            | none => records2
      | none => records2
    else records2
  { st with gs := gs4, records := records3 }

/-- A wrestler with every numeric attribute set to `v` (handy concrete
fixture). -/
def mkW (i : ℤ) (v : ℤ) : Wrestler :=
  { id := i, name := "W" ++ toString i
    strength := v, speed := v, agility := v, durability := v, stamina := v, recovery := v
    striking := v, grappling := v, submission := v, highFlying := v, hardcore := v
    powerMoves := v, technical := v, dirtyTactics := v
    strikeDefense := v, grappleDefense := v, aerialDefense := v, ringAwareness := v
    micSkills := v, charisma := v, look := v, starPower := v, entrance := v
    psychology := v, consistency := v, bigMatch := v, clutch := v
    morale := 75, condition := 100, heat := 50, wins := 0, losses := 0
    hasMitbBriefcase := false, isInjured := false, injuryWeeksRemaining := 0 }

/-- Seven concrete wrestlers (a participant count the spec claims a ladder
match must reject). -/
def sevenWrestlers : List Wrestler :=
  [mkW 1 50, mkW 2 50, mkW 3 50, mkW 4 50, mkW 5 50, mkW 6 50, mkW 7 50]

/-- A feud the service layer can create: blood intensity, no matches yet. -/
def bloodFeud : Feud :=
  { id := 1, wrestlerAId := 1, wrestlerBId := 2, intensity := "blood"
    matchesRemaining := 5, totalMatches := 0, winsA := 0, winsB := 0
    isActive := true, blowoffMatchScheduled := false }

/-- A fresh default feud between wrestlers 1 and 2. -/
def simpleFeud : Feud := { id := 1, wrestlerAId := 1, wrestlerBId := 2 }

/-- A concrete stable containing wrestler 1 but not wrestler 2. -/
def stableRed : Stable :=
  { id := 1, name := "Red", leaderId := 1, memberIds := [1, 3, 4], isActive := true }

/-- A concrete title held by wrestler 1. -/
def beltTitle : Title := { id := 5, name := "Belt", prestige := 80, currentHolderId := some 1 }

/-- Game state for the DQ-backfire scenario: wrestler 1 (in a stable) defends
the title against wrestler 2 (not in a stable). -/
def gsDq : GameSt :=
  { roster := [mkW 1 60, mkW 2 60], titles := [beltTitle], feuds := [], stables := [stableRed] }

/-- The title match configuration for the DQ-backfire scenario. -/
def cfgDq : SinglesCfg :=
  { p1 := mkW 1 60, p2 := mkW 2 60, isTitleMatch := true, titleId := some 5 }

/-- Random draws forcing interference (roll 0 ≤ 20% chance) that backfires
(help roll 0.8 ≥ 0.7). -/
def rngDq : SinglesRng := { var1 := 0, var2 := 0, interfRoll := 0, helpRoll := 0.8, chaos := 1 }

/-- Random draws with no variance and an interference roll that always loses
(1 exceeds every interference chance). -/
def rngPlain : SinglesRng := { var1 := 0, var2 := 0, interfRoll := 1, helpRoll := 0, chaos := 1 }

/-- A stable-free game state where wrestler 1 defends the belt. -/
def gsPlainTitle : GameSt :=
  { roster := [mkW 1 60, mkW 2 50], titles := [beltTitle], feuds := [], stables := [] }

/-- Iron Man draws with all-zero variance: equal wrestlers never score a
fall. -/
def ironRngZero : IronRng :=
  { varA := fun _ => 0, varB := fun _ => 0, fallRoll := fun _ => 0
    fallTypeIsPin := fun _ => true }

/-- An open reign of wrestler 1 over title 5. -/
def reignOne : TitleReign :=
  { id := 1, titleId := 5, titleName := "Belt", holderId := 1, holderName := "W1"
    holderType := "wrestler", wonDate := ⟨1, 1, 1⟩, lostDate := none
    successfulDefenses := 0 }

/-- A show state whose records hold exactly the open reign of wrestler 1. -/
def showStFix : ShowSt :=
  { gs := gsPlainTitle
    records :=
      { matchHistory := [], wrestlerRecords := [], titleReigns := [reignOne]
        nextMatchId := 1, nextReignId := 2 } }

/-- The title defense configuration: wrestler 1 (equal rating) defends title 5
against wrestler 2. -/
def cfgDefense : SinglesCfg :=
  { p1 := mkW 1 60, p2 := mkW 2 60, isTitleMatch := true, titleId := some 5 }

/-- Invariant of the Royal Rumble loop: entry counter in range, at least one
active entrant, active plus eliminated account for everyone who entered,
elimination orders are consecutive from 1, the entry numbers of active and
eliminated entrants form a permutation of the issued entry numbers, and every
tracked wrestler is the roster entry its entry number points at. -/
def RumbleInv (wrestlers : List Wrestler) (st : RumbleSt) : Prop :=
  st.nextEntry ≤ 10 ∧ 2 ≤ st.nextEntry ∧ 1 ≤ st.active.length ∧
    st.active.length + st.elims.length = st.nextEntry ∧
    st.elims.map (·.eliminationOrder) = List.range' 1 st.elims.length ∧
    (st.active.map (·.entry) ++ st.elims.map (·.entryNumber)).Perm
      (List.range' 1 st.nextEntry) ∧
    (∀ e ∈ st.active, e.w = wrestlers.getD (e.entry - 1) default) ∧
    (∀ e ∈ st.elims, e.w = wrestlers.getD (e.entryNumber - 1) default)

/-- A Rumble rng that admits entrants eagerly and eliminates deterministically
(zero survival draws, eliminator choice 0). -/
def rumbleRngZero : RumbleRng :=
  { enterRoll := fun _ => true, survRoll := fun _ _ => 0, elimChoice := fun _ => 0 }

/-- Ten concrete distinct wrestlers in entry order. -/
def tenWrestlers : List Wrestler :=
  [mkW 1 50, mkW 2 50, mkW 3 50, mkW 4 50, mkW 5 50, mkW 6 50, mkW 7 50, mkW 8 50,
    mkW 9 50, mkW 10 50]

end PWSim

namespace PWSim

/-! ## Theorems -/

theorem pyInt_nonneg {q : ℚ} (h : 0 ≤ q) : 0 ≤ pyInt q := by
  unfold pyInt
  rw [if_neg (not_lt.mpr h)]
  exact Int.le_floor.mpr (by exact_mod_cast h)

theorem clampRating_nonneg (q : ℚ) : 0 ≤ clampRating q := by
  unfold clampRating
  exact le_min (by norm_num) (le_max_left 0 _)

theorem clampRating_le_100 (q : ℚ) : clampRating q ≤ 100 :=
  min_le_left _ _

/-- C4: every rating function — singles, tag, multi-man, ladder, iron man,
chamber, MITB and rumble — returns an integer in [0, 100], for all attribute
values and all random draws. -/
theorem all_ratings_in_range :
    (∀ p1 p2 cage title feud io ih chaos,
        0 ≤ calcMatchRating p1 p2 cage title feud io ih chaos ∧
          calcMatchRating p1 p2 cage title feud io ih chaos ≤ 100) ∧
    (∀ ta tb roster cage title chaos,
        0 ≤ calcTagMatchRating ta tb roster cage title chaos ∧
          calcTagMatchRating ta tb roster cage title chaos ≤ 100) ∧
    (∀ ws title chaos,
        0 ≤ multiManRating ws title chaos ∧ multiManRating ws title chaos ≤ 100) ∧
    (∀ ws title chaos, 0 ≤ ladderRating ws title chaos ∧ ladderRating ws title chaos ≤ 100) ∧
    (∀ wa wb fa fb title chaos,
        0 ≤ ironManRating wa wb fa fb title chaos ∧ ironManRating wa wb fa fb title chaos ≤ 100) ∧
    (∀ ws title chaos,
        0 ≤ chamberRating ws title chaos ∧ chamberRating ws title chaos ≤ 100) ∧
    (∀ ws chaos, 0 ≤ mitbRating ws chaos ∧ mitbRating ws chaos ≤ 100) ∧
    (∀ ws chaos, 0 ≤ rumbleRating ws chaos ∧ rumbleRating ws chaos ≤ 100) := by
  refine ⟨fun _ _ _ _ _ _ _ _ => ⟨clampRating_nonneg _, clampRating_le_100 _⟩,
    fun ta tb roster cage title chaos => ?_, ?_, ?_, ?_, ?_, ?_, ?_⟩
  · unfold calcTagMatchRating
    dsimp only
    constructor
    · split
      · norm_num
      · exact clampRating_nonneg _
    · split
      · norm_num
      · exact clampRating_le_100 _
  all_goals intros; exact ⟨clampRating_nonneg _, clampRating_le_100 _⟩

/-- C2 counterexample: a ladder match with seven wrestlers does not raise —
the constructor accepts the list (naming it a Money in the Bank Ladder
Match), contradicting the claim that participant counts outside 2–6 raise. -/
theorem ladderInit_accepts_seven :
    sevenWrestlers.length = 7 ∧ (ladderMatchInit sevenWrestlers).isOk = true := by decide

/-- C2 amended: `LadderMatch.__init__` raises exactly when given fewer than 2
wrestlers; any larger list — including 7 or more — is accepted. -/
theorem ladderInit_ok_iff (ws : List Wrestler) :
    (ladderMatchInit ws).isOk = true ↔ 2 ≤ ws.length := by
  unfold ladderMatchInit
  by_cases h : ws.length < 2
  · rw [if_pos h]
    constructor
    · intro hx
      simp [Except.isOk, Except.toBool] at hx
    · intro hx
      exact absurd hx (by omega)
  · rw [if_neg h]
    constructor
    · intro _
      omega
    · intro _
      split_ifs <;> rfl

theorem recordMatch_fields (f : Feud) (w : ℤ) :
    ((f.recordMatch w).1).totalMatches = f.totalMatches + 1 ∧
    ((f.recordMatch w).1).intensity =
      (if f.totalMatches + 1 ≥ 4 then "blood"
       else if f.totalMatches + 1 ≥ 2 then "intense"
       else f.intensity) ∧
    ((f.recordMatch w).1).winsA = (if w = f.wrestlerAId then f.winsA + 1 else f.winsA) ∧
    ((f.recordMatch w).1).winsB =
      (if w = f.wrestlerAId then f.winsB
       else if w = f.wrestlerBId then f.winsB + 1 else f.winsB) := by
  unfold Feud.recordMatch
  dsimp only
  split_ifs <;> simp_all

theorem intensityRank_le_two (s : String) : intensityRank s ≤ 2 := by
  unfold intensityRank
  split_ifs <;> omega

theorem intensity_monotone_step (f : Feud) (w : ℤ)
    (h : intensityRank f.intensity ≤ impliedRank f.totalMatches) :
    intensityRank f.intensity ≤ intensityRank ((f.recordMatch w).1).intensity ∧
      intensityRank ((f.recordMatch w).1).intensity ≤
        impliedRank ((f.recordMatch w).1).totalMatches := by
  obtain ⟨ht, hi, -, -⟩ := recordMatch_fields f w
  rw [hi, ht]
  have hb : intensityRank "blood" = 2 := by decide
  have hn : intensityRank "intense" = 1 := by decide
  have hle := intensityRank_le_two f.intensity
  unfold impliedRank at h ⊢
  split_ifs at h ⊢ <;> constructor <;> simp_all <;> omega

/-- C3 counterexample: a feud the service layer creates at blood intensity
with no recorded matches keeps blood after its first `record_match` call, but
its second call downgrades the intensity to intense. -/
theorem feud_blood_downgrades_to_intense :
    ((bloodFeud.recordMatch 1).1).intensity = "blood" ∧
      ((((bloodFeud.recordMatch 1).1).recordMatch 2).1).intensity = "intense" := by decide

/-- C3 amended: intensity never downgrades across `record_match` calls for
every feud whose starting intensity does not exceed the level the escalation
rule implies for its total-match count (in particular every feud created with
the default heated intensity, and the property is preserved by every call); a
feud the service layer creates at blood intensity with no recorded matches
falls outside this precondition and is downgraded to intense at its second
`record_match` call. -/
theorem feud_intensity_never_downgrades (f : Feud) (l : List ℤ) (w : ℤ)
    (h : intensityRank f.intensity ≤ impliedRank f.totalMatches) :
    intensityRank (f.recordAll l).intensity ≤
      intensityRank (f.recordAll (l ++ [w])).intensity := by
  have key : ∀ (l : List ℤ) (g : Feud),
      intensityRank g.intensity ≤ impliedRank g.totalMatches →
        intensityRank (g.recordAll l).intensity ≤ impliedRank (g.recordAll l).totalMatches := by
    intro l
    induction l with
    | nil => exact fun g hg => hg
    | cons x xs ih =>
        intro g hg
        exact ih _ (intensity_monotone_step g x hg).2
  have happ : f.recordAll (l ++ [w]) = ((f.recordAll l).recordMatch w).1 := by
    unfold Feud.recordAll
    rw [List.foldl_append]
    rfl
  rw [happ]
  exact (intensity_monotone_step (f.recordAll l) w (key l f h)).1

theorem feud_intensity_never_downgrades_witness :
    intensityRank simpleFeud.intensity ≤ impliedRank simpleFeud.totalMatches ∧
      intensityRank (simpleFeud.recordAll [1]).intensity ≤
        intensityRank (simpleFeud.recordAll ([1] ++ [2])).intensity :=
  ⟨by decide, feud_intensity_never_downgrades simpleFeud [1] 2 (by decide)⟩

/-- C8 counterexample: recording a match with a winner id that belongs to
neither feud participant (id 3 in a feud of 1 vs 2) makes
`wins_a + wins_b ≠ total_matches`. -/
theorem feud_total_exceeds_wins_on_foreign_winner :
    ((simpleFeud.recordMatch 3).1).winsA + ((simpleFeud.recordMatch 3).1).winsB ≠
      ((simpleFeud.recordMatch 3).1).totalMatches := by decide

/-- C8 amended: `record_match` preserves `wins_a + wins_b ≤ total_matches` for
every winner id, and preserves the equality `wins_a + wins_b = total_matches`
exactly when the winner id is one of the feud's two wrestler ids. -/
theorem feud_wins_sum (f : Feud) (w : ℤ) :
    (f.winsA + f.winsB ≤ f.totalMatches →
      ((f.recordMatch w).1).winsA + ((f.recordMatch w).1).winsB ≤
        ((f.recordMatch w).1).totalMatches) ∧
    (f.winsA + f.winsB = f.totalMatches → (w = f.wrestlerAId ∨ w = f.wrestlerBId) →
      ((f.recordMatch w).1).winsA + ((f.recordMatch w).1).winsB =
        ((f.recordMatch w).1).totalMatches) := by
  obtain ⟨ht, -, ha, hb⟩ := recordMatch_fields f w
  rw [ht, ha, hb]
  constructor
  · intro hle
    split_ifs <;> omega
  · intro hsum hw
    rcases hw with h | h <;> split_ifs <;> omega

theorem feud_wins_sum_witness :
    (simpleFeud.winsA + simpleFeud.winsB = simpleFeud.totalMatches) ∧
      ((simpleFeud.recordMatch 1).1).winsA + ((simpleFeud.recordMatch 1).1).winsB =
        ((simpleFeud.recordMatch 1).1).totalMatches :=
  ⟨by decide, (feud_wins_sum simpleFeud 1).2 (by decide) (Or.inl (by decide))⟩

theorem singles_winner_cases (gs : Option GameSt) (p1 p2 : Wrestler) (rng : SinglesRng) :
    ((determineWinner gs p1 p2 rng).interferenceOccurred = true ∧
        (determineWinner gs p1 p2 rng).interferenceHelped = false) ∨
      (determineWinner gs p1 p2 rng).winnerIsP1 =
        decide ((determineWinner gs p1 p2 rng).score1 ≥ (determineWinner gs p1 p2 rng).score2) := by
  unfold determineWinner
  dsimp only
  split
  · left
    exact ⟨rfl, rfl⟩
  · right
    rfl
  · right
    rfl

/-- C9: in a singles match whose interference did not end in a DQ backfire,
the side whose final score (overall rating plus variance, minus any
distraction penalty) is at least the other's wins; an exact tie goes to the
first operand `p1`. -/
theorem singles_higher_score_wins (gs : Option GameSt) (p1 p2 : Wrestler) (rng : SinglesRng)
    (hnd : ¬((determineWinner gs p1 p2 rng).interferenceOccurred = true ∧
        (determineWinner gs p1 p2 rng).interferenceHelped = false)) :
    ((determineWinner gs p1 p2 rng).score2 ≤ (determineWinner gs p1 p2 rng).score1 →
        (determineWinner gs p1 p2 rng).winnerIsP1 = true) ∧
      ((determineWinner gs p1 p2 rng).score1 < (determineWinner gs p1 p2 rng).score2 →
        (determineWinner gs p1 p2 rng).winnerIsP1 = false) := by
  rcases singles_winner_cases gs p1 p2 rng with h | h
  · exact absurd h hnd
  · rw [h]
    constructor
    · intro hge
      exact decide_eq_true hge
    · intro hlt
      exact decide_eq_false (not_le.mpr hlt)

theorem singles_higher_score_wins_witness :
    (¬((determineWinner none (mkW 1 60) (mkW 2 50) rngPlain).interferenceOccurred = true ∧
        (determineWinner none (mkW 1 60) (mkW 2 50) rngPlain).interferenceHelped = false)) ∧
      ((determineWinner none (mkW 1 60) (mkW 2 50) rngPlain).score2 ≤
          (determineWinner none (mkW 1 60) (mkW 2 50) rngPlain).score1 →
        (determineWinner none (mkW 1 60) (mkW 2 50) rngPlain).winnerIsP1 = true) :=
  ⟨by decide, (singles_higher_score_wins none (mkW 1 60) (mkW 2 50) rngPlain (by decide)).1⟩

theorem findTitle_setTitleHolder (tid wid : ℤ) (ts : List Title) (t : Title)
    (h : findTitle tid ts = some t) :
    findTitle tid (setTitleHolder tid wid ts) =
      some { t with currentHolderId := some wid } := by
  induction ts with
  | nil => simp [findTitle, List.find?] at h
  | cons x xs ih =>
    by_cases hx : x.id = tid
    · unfold setTitleHolder
      rw [if_pos hx]
      unfold findTitle at h ⊢
      rw [List.find?_cons_of_pos _ (by simp [hx])] at h
      rw [List.find?_cons_of_pos _ (by simp [hx])]
      cases h
      rfl
    · unfold setTitleHolder
      rw [if_neg hx]
      unfold findTitle at h ⊢
      rw [List.find?_cons_of_neg _ (by simp [hx])] at h
      rw [List.find?_cons_of_neg _ (by simp [hx])]
      exact ih h

theorem simulate_gsAfter (gs : GameSt) (cfg : SinglesCfg) (rng : SinglesRng) :
    (matchSimulateSingles (some gs) cfg rng).gsAfter =
      some { gs with
        titles := matchHandleTitleChange cfg.isTitleMatch true cfg.titleId
          (if (matchSimulateSingles (some gs) cfg rng).out.winnerIsP1 then cfg.p1.id
           else cfg.p2.id)
          gs.titles } := rfl

/-- C1 counterexample: a singles title match that ends by DQ interference
backfire (interference occurred, did not help) still moves
`current_holder_id` — from holder 1 to the DQ winner 2. -/
theorem title_changes_on_dq_backfire :
    ((matchSimulateSingles (some gsDq) cfgDq rngDq).out.interferenceOccurred = true) ∧
      ((matchSimulateSingles (some gsDq) cfgDq rngDq).out.interferenceHelped = false) ∧
      ((findTitle 5 gsDq.titles).map (·.currentHolderId) = some (some 1)) ∧
      ((matchSimulateSingles (some gsDq) cfgDq rngDq).gsAfter.map
          (fun g => (findTitle 5 g.titles).map (·.currentHolderId)) =
        some (some (some 2))) := by
  with_unfolding_all decide

/-- C1 amended: in a singles title match with a game state, `Match.simulate`
writes the winner's id into the referenced title on every decided finish —
DQ interference backfires included — so the holder is not protected by a DQ
finish. -/
theorem title_follows_winner (gs : GameSt) (cfg : SinglesCfg) (rng : SinglesRng) (tid : ℤ)
    (t : Title) (ht : cfg.isTitleMatch = true) (htid : cfg.titleId = some tid)
    (hfind : findTitle tid gs.titles = some t) :
    (matchSimulateSingles (some gs) cfg rng).gsAfter.map (fun g => findTitle tid g.titles) =
      some (some { t with
        currentHolderId :=
          some (if (matchSimulateSingles (some gs) cfg rng).out.winnerIsP1 then cfg.p1.id
                else cfg.p2.id) }) := by
  rw [simulate_gsAfter]
  unfold matchHandleTitleChange
  rw [ht, htid]
  simp only [Bool.not_true, or_self, if_false, Option.map_some]
  exact congrArg some (findTitle_setTitleHolder tid _ gs.titles t hfind)

theorem title_follows_winner_witness :
    cfgDq.isTitleMatch = true ∧ cfgDq.titleId = some 5 ∧
      findTitle 5 gsPlainTitle.titles = some beltTitle ∧
      (matchSimulateSingles (some gsPlainTitle) cfgDq rngPlain).gsAfter.map
          (fun g => findTitle 5 g.titles) =
        some (some { beltTitle with
          currentHolderId :=
            some (if (matchSimulateSingles (some gsPlainTitle) cfgDq rngPlain).out.winnerIsP1
                  then cfgDq.p1.id else cfgDq.p2.id) }) :=
  ⟨rfl, rfl, by decide,
    title_follows_winner gsPlainTitle cfgDq rngPlain 5 beltTitle rfl rfl (by decide)⟩

/-- C6: an Iron Man match that ends with equal fall counts is a draw with no
winner, and the game state — titles included — is left untouched. -/
theorem ironman_equal_falls_draw (wa wb : Wrestler) (timeLimit : ℤ) (gs : Option GameSt)
    (tm : Bool) (tid : Option ℤ) (rng : IronRng) (chaos : ℚ)
    (h : (ironManSimulate wa wb timeLimit gs tm tid rng chaos).fallsA =
        (ironManSimulate wa wb timeLimit gs tm tid rng chaos).fallsB) :
    (ironManSimulate wa wb timeLimit gs tm tid rng chaos).isDraw = true ∧
      (ironManSimulate wa wb timeLimit gs tm tid rng chaos).winnerIsA = none ∧
      (ironManSimulate wa wb timeLimit gs tm tid rng chaos).gsAfter = gs := by
  unfold ironManSimulate at h ⊢
  dsimp only at h ⊢
  generalize hF : (List.range _).foldl _ _ = final at h ⊢
  have h1 : ¬(final.fallsA > final.fallsB) := by omega
  have h2 : ¬(final.fallsB > final.fallsA) := by omega
  rw [if_neg h1, if_neg h2]
  refine ⟨rfl, rfl, ?_⟩
  cases gs with
  | none => rfl
  | some g =>
    cases tid with
    | none => rfl
    | some t => rfl

set_option maxRecDepth 100000 in
theorem ironman_equal_falls_draw_witness :
    ((ironManSimulate (mkW 1 50) (mkW 2 50) 30 (some gsPlainTitle) true (some 5) ironRngZero
          1).fallsA =
        (ironManSimulate (mkW 1 50) (mkW 2 50) 30 (some gsPlainTitle) true (some 5) ironRngZero
          1).fallsB) ∧
      (ironManSimulate (mkW 1 50) (mkW 2 50) 30 (some gsPlainTitle) true (some 5) ironRngZero
          1).isDraw = true ∧
      (ironManSimulate (mkW 1 50) (mkW 2 50) 30 (some gsPlainTitle) true (some 5) ironRngZero
          1).winnerIsA = none ∧
      (ironManSimulate (mkW 1 50) (mkW 2 50) 30 (some gsPlainTitle) true (some 5) ironRngZero
          1).gsAfter = some gsPlainTitle :=
  ⟨by with_unfolding_all decide,
    ironman_equal_falls_draw (mkW 1 50) (mkW 2 50) 30 (some gsPlainTitle) true (some 5)
      ironRngZero 1 (by with_unfolding_all decide)⟩

theorem checkInjuryRisk_stats (w : Wrestler) (rng : InjuryRng) :
    (w.checkInjuryRisk rng).morale = w.morale ∧ (w.checkInjuryRisk rng).heat = w.heat ∧
      (w.checkInjuryRisk rng).stamina = w.stamina ∧
      (w.checkInjuryRisk rng).condition = w.condition := by
  unfold Wrestler.checkInjuryRisk
  dsimp only
  split_ifs <;> exact ⟨rfl, rfl, rfl, rfl⟩

theorem updateFirstById_heat_bounds (f : Wrestler → Wrestler)
    (hf : ∀ m : Wrestler, 0 ≤ m.heat → m.heat ≤ 100 → 0 ≤ (f m).heat ∧ (f m).heat ≤ 100)
    (wid : ℤ) :
    ∀ r : List Wrestler, (∀ m ∈ r, 0 ≤ m.heat ∧ m.heat ≤ 100) →
      ∀ m ∈ updateFirstById wid f r, 0 ≤ m.heat ∧ m.heat ≤ 100 := by
  intro r
  induction r with
  | nil =>
    intro _ m hm
    cases hm
  | cons x xs ih =>
    intro hall m hm
    unfold updateFirstById at hm
    by_cases hx : x.id = wid
    · rw [if_pos hx] at hm
      rcases List.mem_cons.mp hm with h | h
      · subst h
        exact hf x (hall x (List.mem_cons_self _ _)).1 (hall x (List.mem_cons_self _ _)).2
      · exact hall m (List.mem_cons_of_mem _ h)
    · rw [if_neg hx] at hm
      rcases List.mem_cons.mp hm with h | h
      · subst h
        exact hall m (List.mem_cons_self _ _)
      · exact ih (fun n hn => hall n (List.mem_cons_of_mem _ hn)) m h

theorem foldl_updateFirst_heat_bounds (f : Wrestler → Wrestler)
    (hf : ∀ m : Wrestler, 0 ≤ m.heat → m.heat ≤ 100 → 0 ≤ (f m).heat ∧ (f m).heat ≤ 100)
    (excl : ℤ) :
    ∀ (ids : List ℤ) (r : List Wrestler), (∀ m ∈ r, 0 ≤ m.heat ∧ m.heat ≤ 100) →
      ∀ m ∈ ids.foldl
            (fun r mid => if mid ≠ excl then updateFirstById mid f r else r) r,
        0 ≤ m.heat ∧ m.heat ≤ 100 := by
  intro ids
  induction ids with
  | nil => exact fun r hall => hall
  | cons i is ih =>
    intro r hall
    refine ih _ ?_
    dsimp only
    by_cases hi : i ≠ excl
    · rw [if_pos hi]
      exact updateFirstById_heat_bounds f hf i r hall
    · rw [if_neg hi]
      exact hall

/-- C10 counterexample: for a winner whose heat is 0, an `update_after_match`
call with match rating −100 leaves heat at −10: the winner branch adds
`int(match_rating / 10)` under a `min 100` clamp with no lower clamp, so the
[0, 100] heat bound fails for arbitrary (negative) match ratings. -/
theorem wrestler_heat_goes_negative :
    (Wrestler.updateAfterMatch { mkW 1 50 with heat := 0 } true (-100) 10 ⟨50, 2⟩).heat
      = -10 := by
  with_unfolding_all decide

/-- C10 amended: `update_after_match` keeps morale and heat inside [0, 100]
and stamina and condition nonnegative for any winner flag and any duration
cost, provided the match rating is nonnegative (true of every rating the
engine produces, since every rating function clamps to [0, 100]); and the
show's stable-heat redistribution keeps every roster member's heat inside
[0, 100] unconditionally. -/
theorem wrestler_stats_bounded :
    (∀ (w : Wrestler) (isWinner : Bool) (matchRating durationCost : ℤ) (rng : InjuryRng),
        0 ≤ w.morale → w.morale ≤ 100 → 0 ≤ w.heat → w.heat ≤ 100 → 0 ≤ matchRating →
          0 ≤ (w.updateAfterMatch isWinner matchRating durationCost rng).morale ∧
            (w.updateAfterMatch isWinner matchRating durationCost rng).morale ≤ 100 ∧
            0 ≤ (w.updateAfterMatch isWinner matchRating durationCost rng).heat ∧
            (w.updateAfterMatch isWinner matchRating durationCost rng).heat ≤ 100 ∧
            0 ≤ (w.updateAfterMatch isWinner matchRating durationCost rng).stamina ∧
            0 ≤ (w.updateAfterMatch isWinner matchRating durationCost rng).condition) ∧
    (∀ (gs : GameSt) (winner loser : Wrestler),
        (∀ m ∈ gs.roster, 0 ≤ m.heat ∧ m.heat ≤ 100) →
          ∀ m ∈ (applyStableHeat gs winner loser).roster, 0 ≤ m.heat ∧ m.heat ≤ 100) := by
  constructor
  · intro w isW r c rng h1 h2 h3 h4 h5
    have hg : 0 ≤ pyInt ((r : ℚ) / 10) := pyInt_nonneg (by positivity)
    unfold Wrestler.updateAfterMatch
    refine ⟨?_, ?_, ?_, ?_, ?_, ?_⟩
    · rw [(checkInjuryRisk_stats _ rng).1]
      cases isW <;> (try split_ifs) <;> simp <;> omega
    · rw [(checkInjuryRisk_stats _ rng).1]
      cases isW <;> (try split_ifs) <;> simp <;> omega
    · rw [(checkInjuryRisk_stats _ rng).2.1]
      cases isW <;> (try split_ifs) <;> simp <;> omega
    · rw [(checkInjuryRisk_stats _ rng).2.1]
      cases isW <;> (try split_ifs) <;> simp <;> omega
    · rw [(checkInjuryRisk_stats _ rng).2.2.1]
      cases isW <;> (try split_ifs) <;> simp <;> omega
    · rw [(checkInjuryRisk_stats _ rng).2.2.2]
      cases isW <;> (try split_ifs) <;> simp <;> omega
  · intro gs winner loser hall
    have hplus : ∀ m : Wrestler, 0 ≤ m.heat → m.heat ≤ 100 →
        0 ≤ Wrestler.heat { m with heat := min 100 (m.heat + 2) } ∧
          Wrestler.heat { m with heat := min 100 (m.heat + 2) } ≤ 100 := by
      intro m hm1 hm2
      dsimp only
      omega
    have hminus : ∀ m : Wrestler, 0 ≤ m.heat → m.heat ≤ 100 →
        0 ≤ Wrestler.heat { m with heat := max 0 (m.heat - 1) } ∧
          Wrestler.heat { m with heat := max 0 (m.heat - 1) } ≤ 100 := by
      intro m hm1 hm2
      dsimp only
      omega
    unfold applyStableHeat
    dsimp only
    rcases hw : gs.getWrestlerStable winner.id with _ | stw <;>
      rcases hl : gs.getWrestlerStable loser.id with _ | stl <;>
        dsimp only
    · exact hall
    · exact foldl_updateFirst_heat_bounds _ hminus loser.id stl.memberIds gs.roster hall
    · exact foldl_updateFirst_heat_bounds _ hplus winner.id stw.memberIds gs.roster hall
    · exact foldl_updateFirst_heat_bounds _ hminus loser.id stl.memberIds _
        (foldl_updateFirst_heat_bounds _ hplus winner.id stw.memberIds gs.roster hall)

theorem wrestler_stats_bounded_witness :
    (0 ≤ (mkW 1 50).morale ∧ (mkW 1 50).morale ≤ 100 ∧ 0 ≤ (mkW 1 50).heat ∧
        (mkW 1 50).heat ≤ 100 ∧ (0 : ℤ) ≤ 80) ∧
      (0 ≤ ((mkW 1 50).updateAfterMatch true 80 10 ⟨50, 2⟩).morale ∧
        ((mkW 1 50).updateAfterMatch true 80 10 ⟨50, 2⟩).morale ≤ 100 ∧
        0 ≤ ((mkW 1 50).updateAfterMatch true 80 10 ⟨50, 2⟩).heat ∧
        ((mkW 1 50).updateAfterMatch true 80 10 ⟨50, 2⟩).heat ≤ 100 ∧
        0 ≤ ((mkW 1 50).updateAfterMatch true 80 10 ⟨50, 2⟩).stamina ∧
        0 ≤ ((mkW 1 50).updateAfterMatch true 80 10 ⟨50, 2⟩).condition) ∧
      ((∀ m ∈ gsPlainTitle.roster, 0 ≤ m.heat ∧ m.heat ≤ 100) ∧
        ∀ m ∈ (applyStableHeat gsPlainTitle (mkW 1 60) (mkW 2 50)).roster,
          0 ≤ m.heat ∧ m.heat ≤ 100) :=
  ⟨by decide,
    wrestler_stats_bounded.1 (mkW 1 50) true 80 10 ⟨50, 2⟩ (by decide) (by decide) (by decide)
      (by decide) (by decide),
    by decide,
    wrestler_stats_bounded.2 gsPlainTitle (mkW 1 60) (mkW 2 50) (by decide)⟩

theorem updateFirstReign_split (p : TitleReign → Bool) (f : TitleReign → TitleReign) :
    ∀ l : List TitleReign, l.any p = true →
      ∃ A r B, l = A ++ r :: B ∧ A.any p = false ∧ p r = true ∧
        updateFirstReign p f l = A ++ f r :: B := by
  intro l
  induction l with
  | nil =>
    intro h
    simp at h
  | cons x xs ih =>
    intro h
    by_cases hx : p x = true
    · refine ⟨[], x, xs, rfl, rfl, hx, ?_⟩
      unfold updateFirstReign
      rw [if_pos hx]
      rfl
    · have hxs : xs.any p = true := by
        simp only [List.any_cons, Bool.or_eq_true] at h
        rcases h with h | h
        · exact absurd h hx
        · exact h
      obtain ⟨A, r, B, hl, hA, hr, hupd⟩ := ih hxs
      refine ⟨x :: A, r, B, by rw [hl]; rfl, ?_, hr, ?_⟩
      · simp only [List.any_cons, Bool.or_eq_false_iff]
        exact ⟨by simpa using hx, hA⟩
      · unfold updateFirstReign
        rw [if_neg hx, hupd]
        rfl

theorem bumpLastOpen_split (tid hid : ℤ) (l : List TitleReign)
    (h : l.any (isOpenReignFor tid hid) = true) :
    ∃ A r B, l = A ++ r :: B ∧ isOpenReignFor tid hid r = true ∧
      B.any (isOpenReignFor tid hid) = false ∧
      (updateFirstReign (isOpenReignFor tid hid)
          (fun r => { r with successfulDefenses := r.successfulDefenses + 1 })
          l.reverse).reverse =
        A ++ { r with successfulDefenses := r.successfulDefenses + 1 } :: B := by
  have hrev : l.reverse.any (isOpenReignFor tid hid) = true := by
    rw [List.any_reverse]
    exact h
  obtain ⟨A, r, B, hl, hA, hr, hupd⟩ :=
    updateFirstReign_split (isOpenReignFor tid hid)
      (fun r => { r with successfulDefenses := r.successfulDefenses + 1 }) l.reverse hrev
  have hl2 : l = B.reverse ++ r :: A.reverse := by
    have h2 := congrArg List.reverse hl
    rw [List.reverse_reverse] at h2
    rw [h2]
    simp
  refine ⟨B.reverse, r, A.reverse, hl2, hr, ?_, ?_⟩
  · rw [List.any_reverse]
    exact hA
  · rw [hupd]
    simp

theorem recordWrestlerWin_titleReigns (rm : RecordsManager) (wid : ℤ) (b : Bool) :
    (rm.recordWrestlerWin wid b).titleReigns = rm.titleReigns := by
  unfold RecordsManager.recordWrestlerWin
  split_ifs <;> rfl

theorem recordWrestlerLoss_titleReigns (rm : RecordsManager) (wid : ℤ) (b : Bool) :
    (rm.recordWrestlerLoss wid b).titleReigns = rm.titleReigns := by
  unfold RecordsManager.recordWrestlerLoss
  split_ifs <;> rfl

theorem findTitle_after_handleTitleChange (tid wid : ℤ) (titles : List Title) (t : Title)
    (hfind : findTitle tid titles = some t) :
    findTitle tid (matchHandleTitleChange true true (some tid) wid titles) =
      some { t with currentHolderId := some wid } := by
  unfold matchHandleTitleChange
  simp only [not_true, or_self, if_false]
  exact findTitle_setTitleHolder tid wid titles t hfind

/-- C7: when the show runs a singles title match (nonzero resolvable title id)
whose simulated winner is the pre-match holder `H` — so `title_changed` is
false — the `successful_defenses` counter of `H`'s most recent open
`TitleReign` for that title increments by exactly 1, and every other reign is
untouched. -/
theorem title_defense_increments_once (showName : String) (isPpv : Bool) (cfg0 : SinglesCfg)
    (rng : SinglesRng) (i1 i2 : InjuryRng) (st : ShowSt) (tid H : ℤ) (t : Title)
    (hT : cfg0.isTitleMatch = true) (htid : cfg0.titleId = some tid) (h0 : tid ≠ 0)
    (hfind : findTitle tid st.gs.titles = some t) (hH : t.currentHolderId = some H)
    (hwin : (if (matchSimulateSingles (some st.gs)
          { cfg0 with feud := st.gs.getFeudBetween cfg0.p1.id cfg0.p2.id } rng).out.winnerIsP1
        then cfg0.p1.id else cfg0.p2.id) = H)
    (hopen : st.records.titleReigns.any (isOpenReignFor tid H) = true) :
    ∃ A r B, st.records.titleReigns = A ++ r :: B ∧ isOpenReignFor tid H r = true ∧
      B.any (isOpenReignFor tid H) = false ∧
      (showRunSinglesStep showName isPpv cfg0 rng i1 i2 st).records.titleReigns =
        A ++ { r with successfulDefenses := r.successfulDefenses + 1 } :: B := by
  obtain ⟨A, r, B, hl, hr, hB, hupd⟩ := bumpLastOpen_split tid H st.records.titleReigns hopen
  refine ⟨A, r, B, hl, hr, hB, ?_⟩
  rw [← hupd]
  have htr : truthyId (some tid) = true := by
    simp [truthyId, h0]
  unfold showRunSinglesStep
  dsimp only
  rw [hT, htid] at hwin ⊢
  rw [htr]
  simp only [eq_self_iff_true, true_and, and_self, if_true]
  rw [hfind]
  simp only [Option.bind]
  simp only [hH]
  rw [simulate_gsAfter]
  simp only [Option.getD]
  try dsimp only
  rw [findTitle_after_handleTitleChange tid _ st.gs.titles t hfind]
  try dsimp only
  rw [hwin]
  have hdec : decide (some H ≠ some H) = false := by simp
  rw [hdec]
  simp only [Bool.false_eq_true, if_false]
  unfold RecordsManager.recordTitleDefense
  try dsimp only
  try rw [recordWrestlerLoss_titleReigns, recordWrestlerWin_titleReigns]
  try rfl

theorem title_defense_increments_once_witness :
    (cfgDefense.isTitleMatch = true) ∧ (cfgDefense.titleId = some 5) ∧ ((5 : ℤ) ≠ 0) ∧
      (findTitle 5 showStFix.gs.titles = some beltTitle) ∧
      (beltTitle.currentHolderId = some 1) ∧
      ((if (matchSimulateSingles (some showStFix.gs)
            { cfgDefense with
                feud := showStFix.gs.getFeudBetween cfgDefense.p1.id cfgDefense.p2.id }
            rngPlain).out.winnerIsP1
        then cfgDefense.p1.id else cfgDefense.p2.id) = 1) ∧
      (showStFix.records.titleReigns.any (isOpenReignFor 5 1) = true) ∧
      ∃ A r B, showStFix.records.titleReigns = A ++ r :: B ∧ isOpenReignFor 5 1 r = true ∧
        B.any (isOpenReignFor 5 1) = false ∧
        (showRunSinglesStep "Show" false cfgDefense rngPlain ⟨50, 2⟩ ⟨50, 2⟩
            showStFix).records.titleReigns =
          A ++ { r with successfulDefenses := r.successfulDefenses + 1 } :: B :=
  ⟨rfl, rfl, by decide, by decide, rfl, by with_unfolding_all decide, by decide,
    title_defense_increments_once "Show" false cfgDefense rngPlain ⟨50, 2⟩ ⟨50, 2⟩ showStFix 5 1
      beltTitle rfl rfl (by decide) (by decide) rfl (by with_unfolding_all decide) (by decide)⟩

theorem argminIdx_lt : ∀ l : List ℚ, l ≠ [] → argminIdx l < l.length
  | [], h => absurd rfl h
  | [_], _ => by simp [argminIdx]
  | x :: y :: ys, _ => by
    have ih := argminIdx_lt (y :: ys) (by simp)
    unfold argminIdx
    dsimp only
    split_ifs
    · simp
    · simp only [List.length_cons] at ih ⊢
      omega

theorem perm_getElem_cons_eraseIdx {α : Type} [DecidableEq α] (l : List α) (i : ℕ)
    (h : i < l.length) : List.Perm l (l[i] :: l.eraseIdx i) :=
  (List.perm_cons_erase (List.getElem_mem h)).trans ((List.erase_getElem h).cons _)

theorem inv_fatigue (w : List Wrestler) (a : List REntrant) (n : ℕ) (el : List RElim)
    (s s' : ℕ) (h : RumbleInv w ⟨a, n, el, s⟩) :
    RumbleInv w ⟨a.map (fun e => { e with fatigue := e.fatigue + 1 }), n, el, s'⟩ := by
  unfold RumbleInv at h ⊢
  dsimp only at h ⊢
  obtain ⟨h10, h2, h1, hlen, hord, hperm, hcA, hcE⟩ := h
  have hmap : (a.map (fun e => { e with fatigue := e.fatigue + 1 })).map (·.entry) =
      a.map (·.entry) := by
    rw [List.map_map]
    rfl
  refine ⟨h10, h2, ?_, ?_, hord, ?_, ?_, hcE⟩
  · simpa using h1
  · simpa using hlen
  · rw [hmap]
    exact hperm
  · intro e he
    obtain ⟨x, hx, rfl⟩ := List.mem_map.mp he
    exact hcA x hx

theorem inv_enter (w : List Wrestler) (a : List REntrant) (n : ℕ) (el : List RElim)
    (s s' : ℕ) (h : RumbleInv w ⟨a, n, el, s⟩) (hn : n < 10) :
    RumbleInv w ⟨a ++ [⟨w.getD n default, n + 1, 0⟩], n + 1, el, s'⟩ := by
  unfold RumbleInv at h ⊢
  dsimp only at h ⊢
  obtain ⟨h10, h2, h1, hlen, hord, hperm, hcA, hcE⟩ := h
  refine ⟨by omega, by omega, ?_, ?_, hord, ?_, ?_, hcE⟩
  · simp
  · simp only [List.length_append, List.length_cons, List.length_nil]
    omega
  · rw [List.map_append]
    have hr : List.range' 1 (n + 1) = List.range' 1 n ++ [n + 1] := by
      rw [List.range'_concat]
      simp [Nat.add_comm]
    rw [hr]
    have p1 : List.Perm
        (a.map (·.entry) ++ (List.map (·.entry) [(⟨w.getD n default, n + 1, 0⟩ : REntrant)] ++
          el.map (·.entryNumber)))
        (a.map (·.entry) ++ (el.map (·.entryNumber) ++
          List.map (·.entry) [(⟨w.getD n default, n + 1, 0⟩ : REntrant)])) :=
      List.Perm.append_left _ List.perm_append_comm
    have p2 : List.Perm ((a.map (·.entry) ++ el.map (·.entryNumber)) ++ [n + 1])
        (List.range' 1 n ++ [n + 1]) := List.Perm.append_right _ hperm
    rw [List.append_assoc]
    refine p1.trans ?_
    rw [← List.append_assoc]
    exact p2
  · intro e he
    rcases List.mem_append.mp he with hin | hin
    · exact hcA e hin
    · simp only [List.mem_singleton] at hin
      subst hin
      simp

theorem inv_elim (w : List Wrestler) (a : List REntrant) (n : ℕ) (el : List RElim)
    (s s' : ℕ) (h : RumbleInv w ⟨a, n, el, s⟩) (idx : ℕ) (hidx : idx < a.length)
    (hgt : 1 < a.length) (elimBy : Wrestler) :
    RumbleInv w ⟨a.eraseIdx idx, n,
      el ++ [⟨(a.getD idx default).w, elimBy, (a.getD idx default).entry, el.length + 1⟩],
      s'⟩ := by
  unfold RumbleInv at h ⊢
  dsimp only at h ⊢
  obtain ⟨h10, h2, h1, hlen, hord, hperm, hcA, hcE⟩ := h
  have hgetD : a.getD idx default = a[idx] := List.getD_eq_getElem a default hidx
  have hle : (a.eraseIdx idx).length + 1 = a.length := List.length_eraseIdx_add_one hidx
  have hpermA : List.Perm a (a[idx] :: a.eraseIdx idx) := perm_getElem_cons_eraseIdx a idx hidx
  have hmemi : a[idx] ∈ a := List.getElem_mem hidx
  refine ⟨h10, h2, ?_, ?_, ?_, ?_, ?_, ?_⟩
  · omega
  · simp only [List.length_append, List.length_cons, List.length_nil]
    omega
  · rw [List.map_append, List.length_append, hord]
    simp only [List.map_cons, List.map_nil, List.length_cons, List.length_nil]
    rw [List.range'_concat]
    simp [Nat.add_comm]
  · rw [List.map_append]
    simp only [List.map_cons, List.map_nil ]
    rw [hgetD]
    have p1 : List.Perm
        (((a.eraseIdx idx).map (·.entry) ++ el.map (·.entryNumber)) ++ [a[idx].entry])
        (a[idx].entry :: ((a.eraseIdx idx).map (·.entry) ++ el.map (·.entryNumber))) :=
      List.perm_append_singleton _ _
    have p2 : List.Perm ((a[idx].entry :: (a.eraseIdx idx).map (·.entry)) ++
        el.map (·.entryNumber)) (a.map (·.entry) ++ el.map (·.entryNumber)) :=
      List.Perm.append_right _
        (by simpa using (hpermA.map (fun e : REntrant => e.entry)).symm)
    rw [← List.append_assoc]
    exact p1.trans (p2.trans hperm)
  · intro e he
    exact hcA e (hpermA.symm.subset (List.mem_cons_of_mem _ he))
  · intro e he
    rcases List.mem_append.mp he with hin | hin
    · exact hcE e hin
    · simp only [List.mem_singleton] at hin
      subst hin
      dsimp only
      rw [hgetD]
      exact hcA a[idx] hmemi

theorem rumbleInit_inv (w : List Wrestler) : RumbleInv w (rumbleInit w) := by
  unfold RumbleInv rumbleInit
  dsimp only
  refine ⟨by omega, by omega, by simp, by simp, by simp, ?_, ?_, by simp⟩
  · show ([1, 2] ++ ([] : List ℕ)).Perm (List.range' 1 2)
    simp [List.range']
  · intro e he
    simp only [List.mem_cons, List.not_mem_nil, or_false] at he
    rcases he with rfl | rfl <;> simp

theorem rumbleStep_inv (w : List Wrestler) (rng : RumbleRng) (st : RumbleSt)
    (hcond : st.active.length > 1 ∨ st.nextEntry < 10) (hinv : RumbleInv w st) :
    RumbleInv w (rumbleStep w rng st) ∧
      rumbleMeasure (rumbleStep w rng st) < rumbleMeasure st := by
  obtain ⟨sa, sn, sel, ss⟩ := st
  dsimp only at hcond
  have h1 : 1 ≤ sa.length := hinv.2.2.1
  have h10 : sn ≤ 10 := hinv.1
  unfold rumbleStep rumbleMeasure
  dsimp only
  by_cases hadm : sn < 10 ∧ (sa.length < 6 ∨ rng.enterRoll ss = true)
  · rw [if_pos hadm]
    dsimp only
    set A2 := (sa ++ [(⟨w.getD sn default, sn + 1, 0⟩ : REntrant)]).map
        (fun e => { e with fatigue := e.fatigue + 1 }) with hA2
    have hlen2 : A2.length = sa.length + 1 := by
      simp [hA2]
    have hgt : A2.length > 1 := by omega
    rw [if_pos hgt]
    set scores := A2.enum.map (fun p => rumbleSurvivalScore p.2 (rng.survRoll ss p.1))
      with hscoresDef
    have hscores : scores.length = A2.length := by
      simp [hscoresDef]
    have hne : scores ≠ [] := by
      intro hnil
      rw [hnil] at hscores
      simp at hscores
      omega
    have hidx : argminIdx scores < A2.length := by
      have := argminIdx_lt scores hne
      omega
    have hinv2 : RumbleInv w ⟨A2, sn + 1, sel, ss⟩ :=
      inv_fatigue w _ _ _ _ _ (inv_enter w sa sn sel ss ss hinv hadm.1)
    constructor
    · exact inv_elim w A2 (sn + 1) sel ss (ss + 1) hinv2 (argminIdx scores) hidx hgt _
    · have herase : (A2.eraseIdx (argminIdx scores)).length + 1 = A2.length :=
        List.length_eraseIdx_add_one hidx
      dsimp only
      omega
  · rw [if_neg hadm]
    dsimp only
    set A2 := sa.map (fun e => { e with fatigue := e.fatigue + 1 }) with hA2
    have hlen2 : A2.length = sa.length := by
      simp [hA2]
    by_cases hgt : A2.length > 1
    · rw [if_pos hgt]
      set scores := A2.enum.map (fun p => rumbleSurvivalScore p.2 (rng.survRoll ss p.1))
        with hscoresDef
      have hscores : scores.length = A2.length := by
        simp [hscoresDef]
      have hne : scores ≠ [] := by
        intro hnil
        rw [hnil] at hscores
        simp at hscores
        omega
      have hidx : argminIdx scores < A2.length := by
        have := argminIdx_lt scores hne
        omega
      have hinv2 : RumbleInv w ⟨A2, sn, sel, ss⟩ := inv_fatigue w sa sn sel ss ss hinv
      constructor
      · exact inv_elim w A2 sn sel ss (ss + 1) hinv2 (argminIdx scores) hidx hgt _
      · have herase : (A2.eraseIdx (argminIdx scores)).length + 1 = A2.length :=
          List.length_eraseIdx_add_one hidx
        dsimp only
        omega
    · rw [if_neg hgt]
      exfalso
      push_neg at hadm hgt
      have hn10 : sn < 10 := by
        rcases hcond with h | h
        · omega
        · exact h
      have := hadm hn10
      push_neg at this
      omega

theorem rumbleLoop_inv (w : List Wrestler) (rng : RumbleRng) :
    ∀ (fuel : ℕ) (st : RumbleSt), RumbleInv w st → rumbleMeasure st ≤ fuel →
      RumbleInv w (rumbleLoop w rng fuel st) ∧
        ¬((rumbleLoop w rng fuel st).active.length > 1 ∨
          (rumbleLoop w rng fuel st).nextEntry < 10) := by
  intro fuel
  induction fuel with
  | zero =>
    intro st hinv hm
    have heq : rumbleLoop w rng 0 st = st := rfl
    rw [heq]
    refine ⟨hinv, ?_⟩
    obtain ⟨h10, h2, h1, -, -, -, -, -⟩ := hinv
    unfold rumbleMeasure at hm
    omega
  | succ k ih =>
    intro st hinv hm
    have heq : rumbleLoop w rng (k + 1) st =
        if st.active.length > 1 ∨ st.nextEntry < 10 then
          rumbleLoop w rng k (rumbleStep w rng st)
        else st := rfl
    rw [heq]
    by_cases hcond : st.active.length > 1 ∨ st.nextEntry < 10
    · rw [if_pos hcond]
      obtain ⟨hinv2, hdec⟩ := rumbleStep_inv w rng st hcond hinv
      exact ih (rumbleStep w rng st) hinv2 (by omega)
    · rw [if_neg hcond]
      exact ⟨hinv, hcond⟩

/-- C5: a Royal Rumble over 10 distinct wrestlers ends with exactly 9
eliminations whose `elimination_order` fields are exactly 1..9, the winner
together with the eliminated wrestlers is a permutation of the entrants, and
the winner — the sole non-eliminated wrestler — never appears in the
elimination log. -/
theorem rumble_invariants (w : List Wrestler) (rng : RumbleRng) (chaos : ℚ) (fuel : ℕ)
    (hlen : w.length = 10) (hnd : w.Nodup) (hfuel : 17 ≤ fuel) :
    (rumbleSimulate w rng chaos fuel).2.1.length = 9 ∧
      (rumbleSimulate w rng chaos fuel).2.1.map (·.eliminationOrder) = List.range' 1 9 ∧
      ((rumbleSimulate w rng chaos fuel).1 ::
          (rumbleSimulate w rng chaos fuel).2.1.map (·.w)).Perm w ∧
      (rumbleSimulate w rng chaos fuel).1 ∉
        (rumbleSimulate w rng chaos fuel).2.1.map (·.w) := by
  obtain ⟨a0, a1, a2, a3, a4, a5, a6, a7, a8, a9, rfl⟩ :
      ∃ a0 a1 a2 a3 a4 a5 a6 a7 a8 a9,
        w = [a0, a1, a2, a3, a4, a5, a6, a7, a8, a9] := by
    rcases w with - | ⟨a0, w⟩
    · simp at hlen
    rcases w with - | ⟨a1, w⟩
    · simp at hlen
    rcases w with - | ⟨a2, w⟩
    · simp at hlen
    rcases w with - | ⟨a3, w⟩
    · simp at hlen
    rcases w with - | ⟨a4, w⟩
    · simp at hlen
    rcases w with - | ⟨a5, w⟩
    · simp at hlen
    rcases w with - | ⟨a6, w⟩
    · simp at hlen
    rcases w with - | ⟨a7, w⟩
    · simp at hlen
    rcases w with - | ⟨a8, w⟩
    · simp at hlen
    rcases w with - | ⟨a9, w⟩
    · simp at hlen
    rcases w with - | ⟨a10, w⟩
    · exact ⟨a0, a1, a2, a3, a4, a5, a6, a7, a8, a9, rfl⟩
    · simp at hlen
  set W : List Wrestler := [a0, a1, a2, a3, a4, a5, a6, a7, a8, a9] with hW
  obtain ⟨hinv, hexit⟩ := rumbleLoop_inv W rng fuel (rumbleInit W) (rumbleInit_inv W)
      (by unfold rumbleMeasure rumbleInit; simp; omega)
  set stF := rumbleLoop W rng fuel (rumbleInit W) with hstF
  obtain ⟨h10, h2, h1, hlenE, hord, hperm, hcA, hcE⟩ := hinv
  push_neg at hexit
  have hlen1 : stF.active.length = 1 := by omega
  have hnext : stF.nextEntry = 10 := by omega
  have helim9 : stF.elims.length = 9 := by omega
  obtain ⟨e0, he0⟩ := List.length_eq_one.mp hlen1
  have hwinner : (rumbleSimulate W rng chaos fuel).1 = e0.w := by
    unfold rumbleSimulate
    dsimp only
    rw [← hstF, he0]
    rfl
  have helims : (rumbleSimulate W rng chaos fuel).2.1 = stF.elims := by
    show (rumbleLoop W rng fuel (rumbleInit W)).elims = stF.elims
    rw [← hstF]
  rw [hwinner, helims]
  have he0w : e0.w = W.getD (e0.entry - 1) default := by
    refine hcA e0 ?_
    rw [he0]
    exact List.mem_singleton.mpr rfl
  have hperm2 : ((e0.entry :: stF.elims.map (·.entryNumber)) : List ℕ).Perm
      (List.range' 1 10) := by
    rw [he0, hnext] at hperm
    simpa using hperm
  have hmapped := hperm2.map (fun k => W.getD (k - 1) default)
  have hLHS : (e0.entry :: stF.elims.map (·.entryNumber)).map
      (fun k => W.getD (k - 1) default) = e0.w :: stF.elims.map (·.w) := by
    simp only [List.map_cons, List.map_map]
    rw [← he0w]
    refine congrArg _ ?_
    refine List.map_congr_left ?_
    intro e he
    exact (hcE e he).symm
  have hRHS : (List.range' 1 10).map (fun k => W.getD (k - 1) default) = W := by
    rfl
  rw [hLHS, hRHS] at hmapped
  have hnodup2 : (e0.w :: stF.elims.map (·.w)).Nodup := hmapped.symm.nodup hnd
  refine ⟨helim9, ?_, hmapped, (List.nodup_cons.mp hnodup2).1⟩
  rw [hord, helim9]

theorem rumble_invariants_witness :
    tenWrestlers.length = 10 ∧ tenWrestlers.Nodup ∧ (17 : ℕ) ≤ 17 ∧
      ((rumbleSimulate tenWrestlers rumbleRngZero 1 17).2.1.length = 9 ∧
        (rumbleSimulate tenWrestlers rumbleRngZero 1 17).2.1.map (·.eliminationOrder) =
          List.range' 1 9 ∧
        ((rumbleSimulate tenWrestlers rumbleRngZero 1 17).1 ::
            (rumbleSimulate tenWrestlers rumbleRngZero 1 17).2.1.map (·.w)).Perm
          tenWrestlers ∧
        (rumbleSimulate tenWrestlers rumbleRngZero 1 17).1 ∉
          (rumbleSimulate tenWrestlers rumbleRngZero 1 17).2.1.map (·.w)) :=
  ⟨by decide, by decide, by decide,
    rumble_invariants tenWrestlers rumbleRngZero 1 17 (by decide) (by decide) (by decide)⟩

end PWSim
